import Mathlib

/-!
Verification development for the tree-overlay peer-to-peer program
(sources: src/Packet.py, src/Peer.py, src/Stream.py, src/tools/Graph.py,
src/tools/parsers.py, src/tools/SemiNode.py, src/tools/Node.py).

The Python code is shallowly embedded: Python `str` values are modelled as
`List Char` (a Python string is a sequence of code points), byte buffers as
`List Nat` with every element below 256, and Python exceptions as `Except`
or `Option` results.  Every definition follows the source function named in
its doc comment.
-/

set_option maxRecDepth 10000

/-- Python strings are sequences of code points; we model them as `List Char`. -/
abbrev PyStr := List Char

/-- An address is an (ip, port) pair, as throughout the sources
(`src/tools/type_repo.py` is referenced as `Address = Tuple[str, int]`). -/
abbrev Address := PyStr × Nat

/-- Numeric value of a decimal digit character. -/
def digitVal (c : Char) : Nat := c.toNat - 48

/-- Python `int(s)` restricted to the non-negative decimal strings this
program feeds it: `some` of the value on a non-empty all-digit string,
`none` (a `ValueError`) otherwise. -/
def pyInt (s : PyStr) : Option Nat :=
  if s ≠ [] ∧ s.all Char.isDigit then
    some (s.foldl (fun a c => 10 * a + digitVal c) 0)
  else none

/-- Decimal digit character of `d < 10`. -/
def digitChar (d : Nat) : Char :=
  Char.ofNat (48 + d)

/-- Little-endian decimal digits of `n`, with enough fuel to terminate;
kept structurally recursive so that it evaluates inside the kernel. -/
def digitsRevFuel : Nat → Nat → List Nat
  | 0, _ => []
  | _ + 1, 0 => []
  | f + 1, n => n % 10 :: digitsRevFuel f (n / 10)

/-- Python `str(n)` for a natural number: decimal digits, `"0"` for zero. -/
def natToStr (n : Nat) : PyStr :=
  if n = 0 then ['0'] else ((digitsRevFuel n n).reverse.map digitChar)

/-- Python `s.zfill(k)`: left-pad with `'0'` to length `k`. -/
def zfill (k : Nat) (s : PyStr) : PyStr :=
  List.replicate (k - s.length) '0' ++ s

/-- Python `s.split(sep)` for a one-character separator. -/
def splitOn (sep : Char) : PyStr → List PyStr
  | [] => [[]]
  | c :: rest =>
    let r := splitOn sep rest
    if c = sep then [] :: r
    else match r with
      | [] => [[c]]
      | h :: t => (c :: h) :: t

/-- Python `sep.join(parts)` for the one-character separator `'.'`. -/
def joinDot : List PyStr → PyStr
  | [] => []
  | [s] => s
  | s :: rest => s ++ '.' :: joinDot rest

/-- From src/tools/parsers.py, `parse_ip`:
`'.'.join(str(int(part)).zfill(3) for part in ip.split('.'))`;
`none` models the `ValueError` raised by `int` on a non-numeric part. -/
def pyParseIp (ip : PyStr) : Option PyStr := do
  let parts ← (splitOn '.' ip).mapM pyInt
  return joinDot (parts.map (fun n => zfill 3 (natToStr n)))

/-- From src/tools/parsers.py, `parse_port`: `str(int(port)).zfill(5)`,
with the port already a number everywhere the program builds bodies. -/
def pyParsePort (port : Nat) : PyStr :=
  zfill 5 (natToStr port)

/-- The canonical textual form of an IPv4 address with the given octets,
for example `canonicalIp 10 0 0 1 = "010.000.000.001"`. -/
def canonicalIp (o1 o2 o3 o4 : Nat) : PyStr :=
  joinDot ([o1, o2, o3, o4].map (fun n => zfill 3 (natToStr n)))

/-- `socket.inet_ntoa` of four octet bytes: dotted decimal with no padding. -/
def inetNtoa (o1 o2 o3 o4 : Nat) : PyStr :=
  joinDot [natToStr o1, natToStr o2, natToStr o3, natToStr o4]

/-- From src/Packet.py: the five packet types of the wire protocol. -/
inductive PacketType where
  | REGISTER | ADVERTISE | JOIN | MESSAGE | REUNION
deriving DecidableEq, Repr

/-- Numeric wire value of a packet type (the `Enum` values in src/Packet.py). -/
def PacketType.value : PacketType → Nat
  | .REGISTER => 1
  | .ADVERTISE => 2
  | .JOIN => 3
  | .MESSAGE => 4
  | .REUNION => 5

/-- Python `PacketType(n)`: the enum member with value `n`, or a
`ValueError` (`none`) for an unknown value. -/
def packetTypeOfNat (n : Nat) : Option PacketType :=
  if n = 1 then some .REGISTER
  else if n = 2 then some .ADVERTISE
  else if n = 3 then some .JOIN
  else if n = 4 then some .MESSAGE
  else if n = 5 then some .REUNION
  else none

/-- REQ/RES tag shared by the Register, Advertise and Reunion body grammars. -/
inductive ReqRes where
  | REQ | RES
deriving DecidableEq, Repr

/-- Python `RegisterType(s)` / `AdvertiseType(s)` / `ReunionType(s)`:
`'REQ'` and `'RES'` are the only members; anything else is a `ValueError`. -/
def reqResOfTag (s : PyStr) : Option ReqRes :=
  if s = ['R', 'E', 'Q'] then some .REQ
  else if s = ['R', 'E', 'S'] then some .RES
  else none

/-- From src/Packet.py, class `Packet`: version, type, length, source ip
string, source port, body string. -/
structure Packet where
  version : Nat
  packet_type : PacketType
  length : Nat
  source_ip : PyStr
  source_port : Nat
  body : PyStr
deriving DecidableEq, Repr

/-- UTF-8 encoding of one code point (1 to 4 bytes). -/
def utf8EncodeChar (c : Char) : List Nat :=
  let n := c.toNat
  if n < 0x80 then [n]
  else if n < 0x800 then [0xC0 + n / 64, 0x80 + n % 64]
  else if n < 0x10000 then
    [0xE0 + n / 4096, 0x80 + n / 64 % 64, 0x80 + n % 64]
  else
    [0xF0 + n / 262144, 0x80 + n / 4096 % 64, 0x80 + n / 64 % 64, 0x80 + n % 64]

/-- Python `bytes(s, 'utf-8')`. -/
def utf8Encode (s : PyStr) : List Nat :=
  s.flatMap utf8EncodeChar

/-- One step of strict UTF-8 decoding: the first decoded code point of the
byte list and the number of bytes it consumed, or `none` on a malformed
prefix. -/
def utf8DecodeOne (bytes : List Nat) : Option (Char × Nat) :=
  match bytes with
  | [] => none
  | b :: rest =>
    if b < 0x80 then some (Char.ofNat b, 1)
    else if 0xC2 ≤ b ∧ b ≤ 0xDF then
      match rest with
      | b2 :: _ =>
        if 0x80 ≤ b2 ∧ b2 ≤ 0xBF then
          some (Char.ofNat ((b - 0xC0) * 64 + (b2 - 0x80)), 2)
        else none
      | [] => none
    else if 0xE0 ≤ b ∧ b ≤ 0xEF then
      match rest with
      | b2 :: b3 :: _ =>
        if (0x80 ≤ b2 ∧ b2 ≤ 0xBF) ∧ (0x80 ≤ b3 ∧ b3 ≤ 0xBF) ∧
           (b = 0xE0 → 0xA0 ≤ b2) ∧ (b = 0xED → b2 ≤ 0x9F) then
          some (Char.ofNat ((b - 0xE0) * 4096 + (b2 - 0x80) * 64 + (b3 - 0x80)), 3)
        else none
      | _ => none
    else if 0xF0 ≤ b ∧ b ≤ 0xF4 then
      match rest with
      | b2 :: b3 :: b4 :: _ =>
        if (0x80 ≤ b2 ∧ b2 ≤ 0xBF) ∧ (0x80 ≤ b3 ∧ b3 ≤ 0xBF) ∧
           (0x80 ≤ b4 ∧ b4 ≤ 0xBF) ∧ (b = 0xF0 → 0x90 ≤ b2) ∧ (b = 0xF4 → b2 ≤ 0x8F) then
          some (Char.ofNat ((b - 0xF0) * 262144 + (b2 - 0x80) * 4096 +
            (b3 - 0x80) * 64 + (b4 - 0x80)), 4)
        else none
      | _ => none
    else none

/-- Strict UTF-8 decoding driven by a fuel counter; every decoded code
point consumes at least one byte, so fuel equal to the byte count always
suffices. -/
def utf8DecodeFuel : Nat → List Nat → Option PyStr
  | _, [] => some []
  | 0, _ :: _ => none
  | f + 1, b :: rest =>
    match utf8DecodeOne (b :: rest) with
    | none => none
    | some (c, k) => (utf8DecodeFuel f ((b :: rest).drop k)).map (c :: ·)

/-- Python `bs.decode('utf-8')`: strict UTF-8 decoding, `none` on a
malformed byte sequence (a `UnicodeDecodeError`). -/
def utf8Decode (bytes : List Nat) : Option PyStr :=
  utf8DecodeFuel bytes.length bytes

/-- Big-endian 2-byte encoding of a 16-bit value (`struct` format `H`). -/
def be16 (n : Nat) : List Nat := [n / 256, n % 256]

/-- Big-endian 4-byte encoding of a 32-bit value (`struct` format `L`/`I`). -/
def be32 (n : Nat) : List Nat :=
  [n / 16777216, n / 65536 % 256, n / 256 % 256, n % 256]

/-- From src/Packet.py, `Packet.get_buf`:
`struct.pack(f'!HHLHHHHL{len(self.body)}s', version, type.value, length,
ip[0], ip[1], ip[2], ip[3], source_port, bytes(body, 'utf-8'))` where
`ip = [int(part) for part in self.source_ip.split('.')]`.
`none` models the exceptions: `ValueError` from `int`, `IndexError` when
the ip has fewer than four parts, and `struct.error` when a value is out
of range for its format.  `struct` truncates or zero-pads the UTF-8 body
bytes to `len(self.body)` (a character count). -/
def getBuf (p : Packet) : Option (List Nat) := do
  let parts ← (splitOn '.' p.source_ip).mapM pyInt
  match parts with
  | o1 :: o2 :: o3 :: o4 :: _ =>
    if p.version < 65536 ∧ p.length < 4294967296 ∧ p.source_port < 4294967296 ∧
       o1 < 65536 ∧ o2 < 65536 ∧ o3 < 65536 ∧ o4 < 65536 then
      let bodyBytes := utf8Encode p.body
      let n := p.body.length
      return be16 p.version ++ be16 p.packet_type.value ++ be32 p.length ++
        be16 o1 ++ be16 o2 ++ be16 o3 ++ be16 o4 ++ be32 p.source_port ++
        (bodyBytes.take n ++ List.replicate (n - bodyBytes.length) 0)
    else none
  | _ => none

/-- Failure modes of `PacketFactory.parse_buffer` (all Python exceptions). -/
inductive ParseErr where
  | shortHeader | unknownType | badUtf8
deriving DecidableEq, Repr

/-- From src/Packet.py, `PacketFactory.parse_buffer`: splits off the 20-byte
header, reads version/type/length as `!HHI`, reads the source ip from the
odd bytes of header[8:16] via `inet_ntoa` (producing an unpadded dotted
string), the port from header[16:20], and UTF-8 decodes the body.
Errors: a buffer shorter than 20 bytes fails in `struct.unpack`/`inet_ntoa`
(`shortHeader`), an unknown type value raises `ValueError` in
`PacketType(...)` (`unknownType`), and an undecodable body raises
`UnicodeDecodeError` (`badUtf8`). -/
def parseBuffer (buf : List Nat) : Except ParseErr Packet :=
  match buf with
  | b0 :: b1 :: b2 :: b3 :: b4 :: b5 :: b6 :: b7 :: _ :: o1 :: _ :: o2 :: _ :: o3 ::
    _ :: o4 :: p0 :: p1 :: p2 :: p3 :: body =>
    let version := b0 * 256 + b1
    let typeNum := b2 * 256 + b3
    let length := ((b4 * 256 + b5) * 256 + b6) * 256 + b7
    match packetTypeOfNat typeNum with
    | none => .error .unknownType
    | some t =>
      let sourceIp := inetNtoa o1 o2 o3 o4
      let sourcePort := ((p0 * 256 + p1) * 256 + p2) * 256 + p3
      match utf8Decode body with
      | none => .error .badUtf8
      | some chars => .ok ⟨version, t, length, sourceIp, sourcePort, chars⟩
  | _ => .error .shortHeader

/-- Python slice `s[a:b]` (with `a ≤ b`, as in all the uses below). -/
def pySlice (s : PyStr) (a b : Nat) : PyStr :=
  (s.take b).drop a

/-- From src/Packet.py, `Packet.get_n_entries`: `int(self.get_body()[3:5])`
for a Reunion packet, `None` otherwise; `none` also models the `ValueError`
on a non-numeric count. -/
def getNEntries (p : Packet) : Option Nat :=
  if p.packet_type = .REUNION then pyInt (pySlice p.body 3 5) else none

/-- One (ip, port) entry of a Reunion body: characters
`[5+20*i, 5+20*i+15)` for the ip and `[20+20*i, 20+20*i+5)` for the port.
The ip slice is taken as-is (Python keeps a short slice silently); a
non-numeric port slice is a `ValueError` (`none`). -/
def reunionEntry (body : PyStr) (i : Nat) : Option Address :=
  (pyInt (pySlice body (20 + 20 * i) (25 + 20 * i))).map
    (fun port => ((pySlice body (5 + 20 * i) (20 + 20 * i)), port))

/-- From src/Packet.py, `Packet.get_addresses`: entries `0, 1, ..., n-1` of
a Reunion body.  `none` covers both the `None` returned for a non-Reunion
packet and the `ValueError` on a garbled body; every caller that would
touch the result turns either into an exception. -/
def getAddresses (p : Packet) : Option (List Address) := do
  if p.packet_type = .REUNION then
    let n ← getNEntries p
    (List.range n).mapM (reunionEntry p.body)
  else none

/-- From src/Packet.py, `Packet.get_addresses_in_reverse`: entries
`n-1, n-2, ..., 1` of a Reunion body — `range(n_entries - 1, 0, -1)`
stops before index 0, so the first entry is omitted. -/
def getAddressesInReverse (p : Packet) : Option (List Address) := do
  if p.packet_type = .REUNION then
    let n ← getNEntries p
    ((List.range (n - 1)).map (· + 1)).reverse.mapM (reunionEntry p.body)
  else none

/-- The protocol version constant of src/Packet.py. -/
def VERSION : Nat := 1

/-- From src/Packet.py, `PacketFactory.new_reunion_packet`: body is the
tag, the entry count zero-filled to 2 digits, then `parse_ip(ip) +
parse_port(port)` per entry; `none` models the `ValueError` when an ip
fails `parse_ip`. -/
def newReunionPacket (t : ReqRes) (source : Address) (addresses : List Address) :
    Option Packet := do
  let entries ← addresses.mapM (fun a => (pyParseIp a.1).map (· ++ pyParsePort a.2))
  let tag : PyStr := if t = .REQ then ['R', 'E', 'Q'] else ['R', 'E', 'S']
  let body := tag ++ zfill 2 (natToStr addresses.length) ++ entries.flatten
  return ⟨VERSION, .REUNION, body.length, source.1, source.2, body⟩

/-- From src/Packet.py, `PacketFactory.new_advertise_packet`: body `'REQ'`
for a request; `'RES' + parse_ip(neighbour[0]) + parse_port(neighbour[1])`
for a response.  A response with `neighbour = None` subscripts `None` — a
`TypeError`, modelled as `none`; so is a `ValueError` from `parse_ip`. -/
def newAdvertisePacket (t : ReqRes) (source : Address) (neighbour : Option Address) :
    Option Packet := do
  let body : PyStr ←
    if t = .REQ then some ['R', 'E', 'Q']
    else
      neighbour.bind (fun nb =>
        (pyParseIp nb.1).map (fun ip => ['R', 'E', 'S'] ++ ip ++ pyParsePort nb.2))
  return ⟨VERSION, .ADVERTISE, body.length, source.1, source.2, body⟩

/-- From src/Packet.py, `PacketFactory.new_register_packet`: body
`'REQ' + parse_ip(address[0]) + parse_port(address[1])` for a request
(`none` on a missing address or `parse_ip` failure), `'RES' + 'ACK'`
for a response. -/
def newRegisterPacket (t : ReqRes) (source : Address) (address : Option Address) :
    Option Packet := do
  let body : PyStr ←
    if t = .REQ then
      address.bind (fun a =>
        (pyParseIp a.1).map (fun ip => ['R', 'E', 'Q'] ++ ip ++ pyParsePort a.2))
    else some ['R', 'E', 'S', 'A', 'C', 'K']
  return ⟨VERSION, .REGISTER, body.length, source.1, source.2, body⟩

/-- From src/Packet.py, `PacketFactory.new_join_packet`: body `'JOIN'`,
length 4. -/
def newJoinPacket (source : Address) : Packet :=
  ⟨VERSION, .JOIN, 4, source.1, source.2, ['J', 'O', 'I', 'N']⟩

/-- From src/Packet.py, `PacketFactory.new_message_packet`: raw text body,
length = character count. -/
def newMessagePacket (message : PyStr) (source : Address) : Packet :=
  ⟨VERSION, .MESSAGE, message.length, source.1, source.2, message⟩

/-- From src/tools/Graph.py, class `GraphNode`.  Python nodes are heap
objects that refer to each other directly; we model object identity with
indices into a heap list that only ever grows (`parent` and `children`
hold heap indices).  `GraphNode.__eq__` compares addresses, and every
comparison below that Python performs through `==` on nodes does so. -/
structure GNode where
  address : Address
  parent : Option Nat
  children : List Nat
  level : Option Nat
  is_alive : Bool
  last_hello : Option Nat
deriving DecidableEq, Repr

/-- From src/tools/Graph.py, class `NetworkGraph`: `heap` holds every
`GraphNode` object ever created (removal from `self.nodes` does not destroy
the object, and other nodes may still point at it), `nodes` is the
`self.nodes` list as heap indices, `root` the index of `self.root`. -/
structure GraphState where
  heap : List GNode
  root : Nat
  nodes : List Nat
deriving DecidableEq, Repr

/-- The heap entry at index `i`, when `i` is a live object. -/
def gget (g : GraphState) (i : Nat) : Option GNode := g.heap.get? i

/-- The address of the heap object at `i`. -/
def addrOf (g : GraphState) (i : Nat) : Option Address := (gget g i).map GNode.address

/-- Replace the heap entry at `i` (object mutation). -/
def gset (g : GraphState) (i : Nat) (n : GNode) : GraphState :=
  { g with heap := g.heap.set i n }

/-- From src/tools/Graph.py, `NetworkGraph.__init__`: the root is kept
alive (`keep_alive` sets `is_alive` and `last_hello`) and is the only
entry of `self.nodes`; its `level` is left at the `GraphNode.__init__`
default `None`.  (`root.alive = True` sets an attribute nothing reads.) -/
def gInit (rootAddress : Address) (now : Nat) : GraphState :=
  { heap := [⟨rootAddress, none, [], none, true, some now⟩], root := 0, nodes := [0] }

/-- From src/tools/Graph.py, `NetworkGraph.find_node`: first entry of
`self.nodes` whose address equals `node_address` (plain tuple equality). -/
def findNodeIdx (g : GraphState) (address : Address) : Option Nat :=
  g.nodes.find? (fun i => (gget g i).any (fun n => n.address = address))

/-- From src/tools/Graph.py, `check_is_parent(child, parent)`: repeatedly
step `child = child.parent` and compare with `parent` (`GraphNode.__eq__`,
i.e. address equality), false on reaching `None`.  Python loops without a
bound; the fuel passed by every caller below, `heap.length + 1`, covers
every ancestor a finite walk can reach, since any longer walk revisits a
heap index. -/
def checkIsParentF (g : GraphState) : Nat → Option Nat → Address → Bool
  | 0, _, _ => false
  | _ + 1, none, _ => false
  | f + 1, some i, target =>
    match gget g i with
    | none => false
    | some n => if n.address = target then true else checkIsParentF g f n.parent target

/-- Whether the address `target` occurs strictly above the node at heap
index `i`, following `parent` references (the walk `check_is_parent`
performs, with the same address-equality test). -/
def reachesUpTo (g : GraphState) (i : Nat) (target : Address) : Bool :=
  match gget g i with
  | none => false
  | some n => checkIsParentF g (g.heap.length + 1) n.parent target

/-- One dequeue step of the breadth-first traversal in `find_live_node`:
visit the head, enqueue each child whose address is not yet in `visited`
(the Python `visited` dict only ever stores `True`). -/
def bfsAux (g : GraphState) : Nat → List Nat → List Address → List Nat → List Nat
  | 0, _, _, acc => acc
  | _ + 1, [], _, acc => acc
  | f + 1, i :: queue, visited, acc =>
    match gget g i with
    | none => bfsAux g f queue visited acc
    | some n =>
      let step := n.children.foldl
        (fun (s : List Nat × List Address) c =>
          match addrOf g c with
          | none => s
          | some a => if a ∈ s.2 then s else (s.1 ++ [c], s.2 ++ [a]))
        (queue, visited)
      bfsAux g f step.1 step.2 (acc ++ [i])

/-- The level-order node list `graph` that `find_live_node` builds by BFS
from the root.  Fuel `heap.length + 1` suffices: every enqueued index
carries a distinct address, so at most `heap.length` dequeues happen. -/
def bfsCollect (g : GraphState) : List Nat :=
  match gget g g.root with
  | none => []
  | some rn => bfsAux g (g.heap.length + 1) [g.root] [rn.address] []

/-- The `continue` condition of the scan in `find_live_node`: skip a node
when its level is 8, it has two children, it is not alive, the sender is a
known node and an ancestor-by-address of this node, or its address is the
sender. -/
def flnSkip (g : GraphState) (sender : Address) (senderNode : Option Nat) (i : Nat) : Bool :=
  match gget g i with
  | none => true
  | some n =>
    (n.level = some 8) || (n.children.length = 2) || (!n.is_alive) ||
    (match senderNode with
     | some sj => checkIsParentF g (g.heap.length + 1) n.parent
         ((addrOf g sj).getD n.address)
     | none => false) ||
    (n.address = sender)

/-- From src/tools/Graph.py, `NetworkGraph.find_live_node`, resolved to the
heap index of the node whose address is returned: scan the BFS list in
reverse and take the first index the skip condition lets through. -/
def findLiveNodeIdx (g : GraphState) (sender : Address) : Option Nat :=
  (bfsCollect g).reverse.find? (fun i => !flnSkip g sender (findNodeIdx g sender) i)

/-- From src/tools/Graph.py, `NetworkGraph.find_live_node`: the address of
the selected node, `None` (with a "Network is full." log) when the scan
exhausts the list. -/
def findLiveNode (g : GraphState) (sender : Address) : Option Address :=
  (findLiveNodeIdx g sender).bind (addrOf g)

/-- The level `add_node` assigns under father `fi`: 1 when the father
compares equal to the root (`GraphNode.__eq__`: address equality), else
`father.level + 1` — a `TypeError` (`none`) when that level is `None`. -/
def addNodeLevel (g : GraphState) (fi : Nat) : Option Nat := do
  let fn ← gget g fi
  let rootAddr ← addrOf g g.root
  if fn.address = rootAddr then some 1
  else do
    let k ← fn.level
    return k + 1

/-- From src/tools/Graph.py, `GraphNode.add_child`: append when there are
fewer than two children, otherwise only log. -/
def addChild (fn : GNode) (c : Nat) : GNode :=
  if fn.children.length < 2 then { fn with children := fn.children ++ [c] } else fn

/-- From src/tools/Graph.py, `NetworkGraph.add_node`: canonicalize the ip,
look the address up; an existing node is refreshed (`keep_alive`),
re-parented (`set_parent`, which also refreshes), re-leveled and appended
to the new father's children — it is not removed from its previous
father's children; an unknown address becomes a fresh node appended to the
heap and to `self.nodes`.  `none` models the exceptions: `ValueError` from
`parse_ip`, the `AttributeError` when `father_address` names no node, and
the `TypeError` when the father's level is `None` without the father
comparing equal to the root. -/
def addNodeG (g : GraphState) (now : Nat) (ip : PyStr) (port : Nat)
    (fatherAddress : Address) : Option GraphState := do
  let cip ← pyParseIp ip
  let naddr : Address := (cip, port)
  let fi ← findNodeIdx g fatherAddress
  match findNodeIdx g naddr with
  | some oi => do
    let old ← gget g oi
    let lvl ← addNodeLevel g fi
    let g := gset g oi
      { old with is_alive := true, last_hello := some now, parent := some fi,
                 level := some lvl }
    let fn ← gget g fi
    return gset g fi (addChild fn oi)
  | none => do
    let lvl ← addNodeLevel g fi
    let ni := g.heap.length
    let newNode : GNode :=
      ⟨naddr, some fi, [], some lvl, true, some now⟩
    let g := { g with heap := g.heap ++ [newNode] }
    let fn ← gget g fi
    let g := gset g fi (addChild fn ni)
    return { g with nodes := g.nodes ++ [ni] }

/-- From src/tools/Graph.py, `NetworkGraph.keep_alive`: refresh the node's
`is_alive`/`last_hello`; `none` is the `AttributeError` when the address
names no node. -/
def keepAliveG (g : GraphState) (address : Address) (now : Nat) : Option GraphState := do
  let i ← findNodeIdx g address
  let n ← gget g i
  return gset g i { n with is_alive := true, last_hello := some now }

/-- Remove the first list element whose heap address equals `target`
(Python `list.remove` with `GraphNode.__eq__`); `none` when no element
matches (a `ValueError`). -/
def removeFirstByAddr (g : GraphState) (target : Address) : List Nat → Option (List Nat)
  | [] => none
  | j :: rest =>
    if addrOf g j = some target then some rest
    else (removeFirstByAddr g target rest).map (j :: ·)

/-- From src/tools/Graph.py, `NetworkGraph.turn_off_subtree`: worklist
walk over children marking them not-alive.  Python loops unboundedly; the
fuel used by `removeNodeG` covers every use in this file. -/
def turnOffSubtree (g : GraphState) : Nat → List Nat → GraphState
  | 0, _ => g
  | _ + 1, [] => g
  | f + 1, h :: rest =>
    match gget g h with
    | none => turnOffSubtree g f rest
    | some hn =>
      let g' := hn.children.foldl
        (fun gg c =>
          match gget gg c with
          | none => gg
          | some cn => gset gg c { cn with is_alive := false })
        g
      turnOffSubtree g' f (rest ++ hn.children)

/-- From src/tools/Graph.py, `NetworkGraph.remove_node`: turn the node's
subtree off, remove the node from its parent's children
(`node.parent.children.remove(node)`) and from `self.nodes`.  `none`
models the exceptions: `AttributeError` when the address names no node or
the node's parent is `None`, and `ValueError` when `list.remove` finds no
equal element. -/
def removeNodeG (g : GraphState) (address : Address) : Option GraphState := do
  let i ← findNodeIdx g address
  let g := turnOffSubtree g (g.heap.length * g.heap.length + 1) [i]
  let n ← gget g i
  let pi ← n.parent
  let pn ← gget g pi
  let newChildren ← removeFirstByAddr g n.address pn.children
  let g := gset g pi { pn with children := newChildren }
  let newNodes ← removeFirstByAddr g n.address g.nodes
  return { g with nodes := newNodes }

/-- From src/tools/Node.py and src/Stream.py: one connection entry of
`Stream.nodes` — the remote address (the `Node` constructor stores
`parse_ip(ip)`), the `is_register` flag, and the outbound packet buffer. -/
structure Conn where
  address : Address
  is_register : Bool
  out_buff : List Packet
deriving DecidableEq, Repr

/-- From src/Stream.py, `Stream.add_node`: construct a `Node` (which
canonicalizes the ip) and append it unconditionally — duplicates included.
The constructor's `parse_ip` raising is caught by the bare `except`, which
leaves the list unchanged. -/
def streamAddNode (conns : List Conn) (address : Address) (reg : Bool) : List Conn :=
  match pyParseIp address.1 with
  | none => conns
  | some cip => conns ++ [⟨(cip, address.2), reg, []⟩]

/-- Append a packet to the buffer of the first connection matching the
predicate; unchanged when none matches. -/
def enqueueFirst (p : Packet) (q : Conn → Bool) : List Conn → List Conn
  | [] => []
  | c :: rest =>
    if q c then { c with out_buff := c.out_buff ++ [p] } :: rest
    else c :: enqueueFirst p q rest

/-- From src/Stream.py, `add_message_to_out_buff` via `get_node_by_address`:
find the first node whose address equals `(parse_ip(ip), port)` with the
requested `is_register` flag and append to its buffer; silently do nothing
when there is none.  `none` is the `ValueError` when `parse_ip` fails on
the query address. -/
def streamAddMessage (conns : List Conn) (address : Address) (p : Packet)
    (wantRegister : Bool) : Option (List Conn) :=
  (pyParseIp address.1).map (fun cip =>
    enqueueFirst p
      (fun c => c.address = (cip, address.2) && c.is_register = wantRegister) conns)

/-- From src/Stream.py, `send_out_buf_messages(only_register)`: flush (and
clear) the buffer of every node, or of the register nodes only; returns
the new connection list and the packets handed to the transport, in loop
order. -/
def sendOutBufMessages (conns : List Conn) (onlyRegister : Bool) :
    List Conn × List Packet :=
  (conns.map (fun c =>
      if !onlyRegister || c.is_register then { c with out_buff := [] } else c),
   (conns.filter (fun c => !onlyRegister || c.is_register)).flatMap Conn.out_buff)

/-- From src/Peer.py, `ReunionMode`. -/
inductive ReunionMode where
  | FAILED | ACCEPTANCE
deriving DecidableEq, Repr

/-- From src/Peer.py, the state a `Peer` object owns: its own (canonical)
server address, role, registered set (the root's allow-list, stored
canonical via `SemiNode`), parent and children addresses, the root's
`NetworkGraph` (absent on a non-root peer), reunion bookkeeping, the
daemon-started flag, and the `Stream` connection list. -/
structure PeerState where
  server_ip : PyStr
  server_port : Nat
  is_root : Bool
  reunion_mode : ReunionMode
  reunion_daemon_alive : Bool
  registered : List Address
  parent_address : Option Address
  children_addresses : List Address
  network_graph : Option GraphState
  last_hello_time : Option Nat
  last_hello_back_time : Option Nat
  conns : List Conn
deriving DecidableEq, Repr

/-- The peer's own `(ip, port)` pair, `self.address` in src/Peer.py. -/
def PeerState.address (s : PeerState) : Address := (s.server_ip, s.server_port)

/-- The Python exceptions a packet handler can raise; `Peer.run` catches
only `KeyboardInterrupt`, so any of these escapes the main loop. -/
inductive PErr where
  | valueError | typeError | attributeError | indexError
deriving DecidableEq, Repr

/-- From src/Packet.py, `Packet.get_source_server_address`. -/
def packetSource (p : Packet) : Address := (p.source_ip, p.source_port)

/-- From src/Peer.py, `Peer.__validate_received_packet`: only
`length == len(body)` is checked. -/
def validatePacket (p : Packet) : Bool := p.length = p.body.length

/-- From src/Peer.py, `Peer.__check_neighbour`: the address equals the
parent or one of the children. -/
def checkNeighbour (s : PeerState) (address : Address) : Bool :=
  s.children_addresses.any (· = address) || s.parent_address = some address

/-- From src/Peer.py, `Peer.__handle_advertise_request`: drop the request
when the canonicalized sender is not registered; otherwise pick a
neighbour with `find_live_node`, build an Advertise-Response — which
raises `TypeError` when the graph was full and the neighbour is `None` —
enqueue it on the sender's register connection, and record the placement
with `add_node`. -/
def handleAdvertiseRequest (s : PeerState) (now : Nat) (p : Packet) :
    Except PErr PeerState :=
  let sender := packetSource p
  match pyParseIp p.source_ip with
  | none => .error .valueError
  | some cip =>
    if (cip, p.source_port) ∉ s.registered then .ok s
    else
      match s.network_graph with
      | none => .error .attributeError
      | some g =>
        let advertised := if s.is_root then findLiveNode g sender else none
        match newAdvertisePacket .RES s.address advertised with
        | none => .error .typeError
        | some response =>
          match streamAddMessage s.conns sender response true with
          | none => .error .valueError
          | some conns =>
            match advertised with
            | none => .error .typeError
            | some adv =>
              match addNodeG g now cip p.source_port adv with
              | none => .error .attributeError
              | some g' => .ok { s with conns := conns, network_graph := some g' }

/-- Modelled from the spec: `Packet.get_advertised_address`, called at
src/Peer.py line 354, is absent from the sources.  The spec fixes the
Advertise-Response body as `RES` + IP (15 chars) + Port (5 chars), so the
accessor is modelled as the 15-character ip slice after the tag and the
following 5-character port slice parsed as an integer (`none` on a body
too short or non-numeric to parse). -/
def getAdvertisedAddress (p : Packet) : Option Address :=
  if (pySlice p.body 18 23).length = 5 then
    (pyInt (pySlice p.body 18 23)).map (fun port => ((pySlice p.body 3 18), port))
  else none

/-- From src/Peer.py, `Peer.__handle_advertise_response`: reset both hello
timestamps, record the advertised address as the new parent, open a
non-register connection to it, enqueue a Join packet on it, return to
`ACCEPTANCE` mode and start the reunion daemon if it is not running. -/
def handleAdvertiseResponse (s : PeerState) (now : Nat) (p : Packet) :
    Except PErr PeerState :=
  let s := { s with last_hello_time := some now, last_hello_back_time := some now }
  match getAdvertisedAddress p with
  | none => .error .valueError
  | some parentAddress =>
    let s := { s with parent_address := some parentAddress }
    let conns := streamAddNode s.conns parentAddress false
    match streamAddMessage conns parentAddress (newJoinPacket s.address) false with
    | none => .error .valueError
    | some conns =>
      .ok { s with conns := conns, reunion_mode := .ACCEPTANCE,
                   reunion_daemon_alive := true }

/-- From src/Peer.py, `Peer.__handle_advertise_packet`: the tag selects the
branch (an unknown tag raises `ValueError` in `AdvertiseType(...)`); the
root handles requests, a non-root peer handles responses, everything else
is ignored. -/
def handleAdvertisePacket (s : PeerState) (now : Nat) (p : Packet) :
    Except PErr PeerState :=
  match reqResOfTag (pySlice p.body 0 3) with
  | none => .error .valueError
  | some t =>
    if s.is_root ∧ t = .REQ then handleAdvertiseRequest s now p
    else if ¬s.is_root ∧ t = .RES then handleAdvertiseResponse s now p
    else .ok s

/-- From src/Peer.py, `Peer.__handle_register_packet`: the root answers a
request from an unknown sender by recording it (canonicalized, as a
`SemiNode`), opening a register connection and enqueueing a
Register-Response on it; a request from a known sender and every response
are no-ops (a response is only logged). -/
def handleRegisterPacket (s : PeerState) (p : Packet) : Except PErr PeerState :=
  match reqResOfTag (pySlice p.body 0 3) with
  | none => .error .valueError
  | some t =>
    if s.is_root ∧ t = .REQ then
      match pyParseIp p.source_ip with
      | none => .error .valueError
      | some cip =>
        if (cip, p.source_port) ∈ s.registered then .ok s
        else
          let s := { s with registered := s.registered ++ [(cip, p.source_port)] }
          let sender := packetSource p
          let conns := streamAddNode s.conns sender true
          match newRegisterPacket .RES s.address none with
          | none => .error .typeError
          | some response =>
            match streamAddMessage conns sender response true with
            | none => .error .valueError
            | some conns => .ok { s with conns := conns }
    else .ok s

/-- From src/Peer.py, `Peer.__handle_message_packet`: a message from a
known neighbour is re-stamped with this peer's address and forwarded to
every other neighbour (children first, then the parent when present). -/
def handleMessagePacket (s : PeerState) (p : Packet) : Except PErr PeerState :=
  let sender := packetSource p
  let updated := newMessagePacket p.body s.address
  if checkNeighbour s sender then
    let targets := s.children_addresses.map some ++ [s.parent_address]
    let conns? := targets.foldlM
      (fun conns target =>
        match target with
        | none => some conns
        | some a =>
          if a ≠ sender then streamAddMessage conns a updated false else some conns)
      s.conns
    match conns? with
    | none => .error .valueError
    | some conns => .ok { s with conns := conns }
  else .ok s

/-- From src/Peer.py, `Peer.__handle_join_packet`: open a connection to the
sender and append its address to the children list — with no registration,
duplicate or capacity check. -/
def handleJoinPacket (s : PeerState) (p : Packet) : Except PErr PeerState :=
  let newMember := packetSource p
  .ok { s with conns := streamAddNode s.conns newMember false,
               children_addresses := s.children_addresses ++ [newMember] }

/-- From src/Peer.py, `Peer.__update_last_reunion`: `keep_alive` on the
path's first entry.  An unparsable path is a `TypeError` (`None`
subscripted), an empty path an `IndexError`, an unknown sender an
`AttributeError` inside `NetworkGraph.keep_alive`. -/
def updateLastReunion (s : PeerState) (now : Nat) (p : Packet) : Except PErr PeerState :=
  match getAddresses p with
  | none => .error .typeError
  | some [] => .error .indexError
  | some (a0 :: _) =>
    match s.network_graph with
    | none => .error .attributeError
    | some g =>
      match keepAliveG g a0 now with
      | none => .error .attributeError
      | some g' => .ok { s with network_graph := some g' }

/-- From src/Peer.py, `Peer.__respond_to_reunion`: build a Hello-Back from
`get_addresses_in_reverse` and send it to the first entry of the reversed
list — an `IndexError` when that list is empty (a depth-1 Hello). -/
def respondToReunion (s : PeerState) (p : Packet) : Except PErr PeerState :=
  match getAddressesInReverse p with
  | none => .error .typeError
  | some [] => .error .indexError
  | some (next :: rest) =>
    match newReunionPacket .RES s.address (next :: rest) with
    | none => .error .valueError
    | some response =>
      match streamAddMessage s.conns next response false with
      | none => .error .valueError
      | some conns => .ok { s with conns := conns }

/-- From src/Peer.py, `Peer.__pass_reunion_hello`: append this peer's own
address to the path and forward the Hello to the parent — a `TypeError`
when there is no parent (`add_message_to_out_buff(None, ...)`). -/
def passReunionHello (s : PeerState) (p : Packet) : Except PErr PeerState :=
  match getAddresses p with
  | none => .error .typeError
  | some addresses =>
    match newReunionPacket .REQ s.address (addresses ++ [s.address]) with
    | none => .error .valueError
    | some request =>
      match s.parent_address with
      | none => .error .typeError
      | some parentAddress =>
        match streamAddMessage s.conns parentAddress request false with
        | none => .error .valueError
        | some conns => .ok { s with conns := conns }

/-- From src/Peer.py, `Peer.__handle_reunion_hello_back` and
`__pass_reunion_hello_back`: when the path's last entry is this peer the
acknowledgment time is recorded; otherwise the first entry is stripped and
the rest is forwarded to its new first entry (an `IndexError` when the
stripped path is empty). -/
def handleReunionHelloBack (s : PeerState) (now : Nat) (p : Packet) :
    Except PErr PeerState :=
  match getAddresses p with
  | none => .error .typeError
  | some addresses =>
    match addresses.getLast? with
    | none => .error .indexError
    | some last =>
      if last = s.address then .ok { s with last_hello_back_time := some now }
      else
        match addresses with
        | [] => .error .indexError
        | _ :: [] => .error .indexError
        | _ :: next :: more =>
          match newReunionPacket .RES s.address (next :: more) with
          | none => .error .valueError
          | some passed =>
            match streamAddMessage s.conns next passed false with
            | none => .error .valueError
            | some conns => .ok { s with conns := conns }

/-- From src/Peer.py, `Peer.__handle_reunion_packet`: the root answers a
Hello (liveness refresh, then Hello-Back); a non-root peer forwards a
Hello upward; everyone else treats the packet as a Hello-Back. -/
def handleReunionPacket (s : PeerState) (now : Nat) (p : Packet) :
    Except PErr PeerState :=
  match reqResOfTag (pySlice p.body 0 3) with
  | none => .error .valueError
  | some t =>
    if s.is_root ∧ t = .REQ then
      match updateLastReunion s now p with
      | .error e => .error e
      | .ok s' => respondToReunion s' p
    else if t = .REQ then passReunionHello s p
    else handleReunionHelloBack s now p

/-- From src/Peer.py, `Peer.handle_packet`: drop the packet when the
length check fails; in `FAILED` reunion mode dispatch only Advertise
packets; otherwise dispatch on the packet type. -/
def handlePacket (s : PeerState) (now : Nat) (p : Packet) : Except PErr PeerState :=
  if ¬validatePacket p then .ok s
  else if s.reunion_mode = .FAILED then
    if p.packet_type = .ADVERTISE then handleAdvertisePacket s now p else .ok s
  else
    match p.packet_type with
    | .MESSAGE => handleMessagePacket s p
    | .ADVERTISE => handleAdvertisePacket s now p
    | .JOIN => handleJoinPacket s p
    | .REGISTER => handleRegisterPacket s p
    | .REUNION => handleReunionPacket s now p

/-- From src/Peer.py, `Peer.run`: the per-tick outbound flush passes
`reunion_mode == ReunionMode.FAILED` as the `only_register` argument of
`send_out_buf_messages`. -/
def tickFlush (s : PeerState) : List Conn × List Packet :=
  sendOutBufMessages s.conns (s.reunion_mode = .FAILED)

/-! Concrete fixtures used by the counterexample and evaluation theorems. -/

/-- Root address used by the concrete scenarios. -/
def adRoot : Address := ("100.000.000.001".toList, 1)

/-- A second peer address. -/
def adB : Address := ("100.000.000.002".toList, 2)

/-- A third peer address. -/
def adA : Address := ("100.000.000.003".toList, 3)

/-- A fourth peer address. -/
def adC : Address := ("100.000.000.004".toList, 4)

/-- Graph for the reunion scenario: root with child B (level 1), B with
child A (level 2), built by the root's own `add_node` calls. -/
def c1Graph : Option GraphState := do
  let g := gInit adRoot 0
  let g ← addNodeG g 1 adB.1 adB.2 adRoot
  addNodeG g 2 adA.1 adA.2 adB

/-- The root peer during the reunion scenario, holding a non-register
connection to its child B. -/
def c1RootState : PeerState :=
  { server_ip := adRoot.1, server_port := adRoot.2, is_root := true,
    reunion_mode := .ACCEPTANCE, reunion_daemon_alive := true,
    registered := [adB, adA], parent_address := none,
    children_addresses := [adB], network_graph := c1Graph,
    last_hello_time := none, last_hello_back_time := none,
    conns := [⟨adB, false, []⟩] }

/-- The Hello of depth-2 origin A as it reaches the root: path `[A, B]`,
forwarded by B. -/
def c1HelloDeep : Packet :=
  ⟨1, .REUNION, 45, adB.1, adB.2,
   ("REQ02100.000.000.00300003100.000.000.00200002").toList⟩

/-- The Hello of the depth-1 child B itself: path `[B]`. -/
def c1HelloShallow : Packet :=
  ⟨1, .REUNION, 25, adB.1, adB.2, ("REQ01100.000.000.00200002").toList⟩

/-- The Hello-Back the root enqueues for `c1HelloDeep` (the head of the
buffer of its one connection, to B). -/
def c1Response : Option Packet :=
  match handlePacket c1RootState 10 c1HelloDeep with
  | .ok s => ((s.conns.headD ⟨adRoot, false, []⟩).out_buff).head?
  | .error _ => none

/-- Peer B (the root's child, parent of A) when the Hello-Back arrives. -/
def c1BState : PeerState :=
  { server_ip := adB.1, server_port := adB.2, is_root := false,
    reunion_mode := .ACCEPTANCE, reunion_daemon_alive := true,
    registered := [], parent_address := some adRoot,
    children_addresses := [adA], network_graph := none,
    last_hello_time := some 9, last_hello_back_time := some 8,
    conns := [⟨adRoot, true, []⟩, ⟨adRoot, false, []⟩, ⟨adA, false, []⟩] }

/-- An ASCII Message packet for the round-trip witness. -/
def c2GoodPacket : Packet :=
  ⟨1, .MESSAGE, 2, "100.000.000.001".toList, 1, ['h', 'i']⟩

/-- A valid Message packet whose body is the single non-ASCII character
U+00E9: its UTF-8 encoding is 2 bytes, but the character-counted length
field is 1, so the packer truncates mid-codepoint. -/
def c2BadPacket : Packet :=
  ⟨1, .MESSAGE, 1, "100.000.000.001".toList, 1, ['é']⟩

/-- The reachable graph refuting C3, built only by the root's own
operations: attach P1 and X under the root, attach C under P1, re-attach C
under X (C stays in P1's children), expire X (C is turned off but keeps
its dangling parent reference to X's heap object), then a Hello from C
turns C alive again. -/
def c3Chain : Option GraphState := do
  let g := gInit adRoot 0
  let g ← addNodeG g 1 adB.1 adB.2 adRoot
  let g ← addNodeG g 2 adA.1 adA.2 adRoot
  let g ← addNodeG g 3 adC.1 adC.2 adB
  let g ← addNodeG g 4 adC.1 adC.2 adA
  let g ← removeNodeG g adA
  keepAliveG g adC 5

/-- The C3 counterexample graph (heap entries: 0 root, 1 P1, 2 X, 3 C). -/
def c3g : GraphState := c3Chain.getD (gInit adRoot 0)

/-- Root state for the network-full scenario: a fresh graph and an
allow-list carrying the root's own address (any peer may register any
source address, including the root's). -/
def c4State : PeerState :=
  { server_ip := adRoot.1, server_port := adRoot.2, is_root := true,
    reunion_mode := .ACCEPTANCE, reunion_daemon_alive := true,
    registered := [adRoot], parent_address := none, children_addresses := [],
    network_graph := some (gInit adRoot 0), last_hello_time := none,
    last_hello_back_time := none, conns := [⟨adRoot, true, []⟩] }

/-- An Advertise-Request whose source is the root's own address. -/
def c4Packet : Packet := ⟨1, .ADVERTISE, 3, adRoot.1, adRoot.2, ['R', 'E', 'Q']⟩

/-- Graph obtained by attaching the same address under the root twice. -/
def c6Chain : Option GraphState := do
  let g := gInit adRoot 0
  let g ← addNodeG g 1 adB.1 adB.2 adRoot
  addNodeG g 2 adB.1 adB.2 adRoot

/-- The C6 counterexample graph (heap entries: 0 root, 1 the re-attached
node). -/
def c6g : GraphState := c6Chain.getD (gInit adRoot 0)

/-- A minimal non-root peer state for dispatch counterexamples. -/
def c7State : PeerState :=
  { server_ip := adB.1, server_port := adB.2, is_root := false,
    reunion_mode := .ACCEPTANCE, reunion_daemon_alive := true,
    registered := [], parent_address := none, children_addresses := [],
    network_graph := none, last_hello_time := none,
    last_hello_back_time := none, conns := [] }

/-- A length-valid Register packet whose 3-character tag is `'XXX'`. -/
def c7BadTagPacket : Packet :=
  ⟨1, .REGISTER, 3, adB.1, adB.2, ['X', 'X', 'X']⟩

/-- A 20-byte frame whose type field is 6 — no such `PacketType`. -/
def c7BadTypeBuf : List Nat :=
  [0, 1, 0, 6, 0, 0, 0, 0, 0, 100, 0, 0, 0, 0, 0, 1, 0, 0, 0, 1]

/-- Graph with stale levels: attach B under root (level 1), C under B
(level 2), D under C (level 3), then re-attach C under the root — C's
level becomes 1 while its child D keeps level 3. -/
def c9Chain : Option GraphState := do
  let g := gInit adRoot 0
  let g ← addNodeG g 1 adB.1 adB.2 adRoot
  let g ← addNodeG g 2 adA.1 adA.2 adB
  let g ← addNodeG g 3 adC.1 adC.2 adA
  addNodeG g 4 adA.1 adA.2 adRoot

/-- The C9 counterexample graph (heap entries: 0 root, 1 B, 2 C, 3 D). -/
def c9g : GraphState := c9Chain.getD (gInit adRoot 0)

/-- Graphs built from a fresh `NetworkGraph` solely by `add_node` calls
each of which adds a previously-unknown (canonical ip, port) address. -/
inductive BuiltFresh : GraphState → Prop where
  | init : ∀ (address : Address) (now : Nat), BuiltFresh (gInit address now)
  | step : ∀ (g : GraphState) (now : Nat) (ip : PyStr) (port : Nat)
      (father : Address) (cip : PyStr) (g' : GraphState),
      BuiltFresh g →
      pyParseIp ip = some cip →
      findNodeIdx g (cip, port) = none →
      addNodeG g now ip port father = some g' →
      BuiltFresh g'

/-- A peer in `FAILED` reunion mode with one register and one non-register
connection, both with pending traffic. -/
def c8State : PeerState :=
  { server_ip := adB.1, server_port := adB.2, is_root := false,
    reunion_mode := .FAILED, reunion_daemon_alive := true,
    registered := [], parent_address := some adRoot,
    children_addresses := [], network_graph := none,
    last_hello_time := some 0, last_hello_back_time := some 0,
    conns := [⟨adRoot, true, [c4Packet]⟩, ⟨adA, false, [newJoinPacket adB]⟩] }

/-- A peer that already has two children. -/
def c10State : PeerState :=
  { server_ip := adB.1, server_port := adB.2, is_root := false,
    reunion_mode := .ACCEPTANCE, reunion_daemon_alive := true,
    registered := [], parent_address := some adRoot,
    children_addresses := [adA, adC], network_graph := none,
    last_hello_time := some 0, last_hello_back_time := some 0,
    conns := [] }

/-- A Join packet from peer C. -/
def c10Join : Packet := ⟨1, .JOIN, 4, adC.1, adC.2, ['J', 'O', 'I', 'N']⟩

/-- A concrete Advertise-Response advertising the root's address. -/
def c5Packet : Packet :=
  ⟨1, .ADVERTISE, 23, adRoot.1, adRoot.2,
   ("RES100.000.000.00100001").toList⟩

/-- The graph `gInit adRoot 0` after one attach of B under the root
(heap entries: 0 root, 1 B). -/
def c6gOne : GraphState :=
  (addNodeG (gInit adRoot 0) 1 adB.1 adB.2 adRoot).getD (gInit adRoot 0)

/-- Equality of handler results is decidable (needed to evaluate the
concrete scenarios by `decide`). -/
instance {ε α : Type} [DecidableEq ε] [DecidableEq α] : DecidableEq (Except ε α) :=
  fun a b =>
    match a, b with
    | .ok x, .ok y =>
      if h : x = y then .isTrue (by rw [h]) else .isFalse (by simp [h])
    | .error x, .error y =>
      if h : x = y then .isTrue (by rw [h]) else .isFalse (by simp [h])
    | .ok _, .error _ => .isFalse (by simp)
    | .error _, .ok _ => .isFalse (by simp)

/-! Claim theorems. -/

/-- C1: the reunion path symmetry the spec claims does not hold.  For the
depth-2 Hello `[A, B]` the Hello-Back the root enqueues carries only
`[B]` — `get_addresses_in_reverse` stops before index 0 and drops the
origin — so B consumes the Hello-Back as its own acknowledgment (recording
`last_hello_back_time`, forwarding nothing) and A never sees `[A]`; and
for the depth-1 Hello `[B]` the reversed list is empty and the root's
`__respond_to_reunion` raises `IndexError` at `reversed_addresses[0]`.
This contradicts the Hello-Back format documented in src/Packet.py
(entries IPN down to IP0) and the termination test of
`__handle_reunion_hello_back`, which expects the origin last. -/
theorem c1_reunion_code_eval :
    getAddresses c1HelloDeep = some [adA, adB] ∧
    c1Response.bind getAddresses = some [adB] ∧
    c1Response.map (handlePacket c1BState 11) =
      some (.ok { c1BState with last_hello_back_time := some 11 }) ∧
    handlePacket c1RootState 10 c1HelloShallow = .error .indexError := by
  decide

/-- C3 counterexample: a graph state reachable through the root's own
`add_node`/`remove_node`/`keep_alive` calls in which `find_live_node`,
asked to place the removed node X's address, returns the address of C —
heap index 3, whose parent reference still points at X's heap object, so
the sender's address sits directly above the returned node in the parent
chain.  (X is unknown to the node table, so the ancestor check is
skipped.) -/
theorem c3_counterexample :
    c3Chain = some c3g ∧
    findLiveNode c3g adA = some adC ∧
    findLiveNodeIdx c3g adA = some 3 ∧
    reachesUpTo c3g 3 adA = true ∧
    findNodeIdx c3g adA = none := by
  decide

/-- C4: when the placement algorithm finds no qualifying node (here: the
only node is the root itself, excluded as the sender), `find_live_node`
returns `None`, and `__handle_advertise_request` then passes that `None`
into `new_advertise_packet(AdvertiseType.RES, ..., None)`, which raises
`TypeError` (`'NoneType' object is not subscriptable`) — the exception
escapes `handle_packet`, contradicting the log-only design of the
"Network is full." branch. -/
theorem c4_network_full_crash :
    (adRoot.1, adRoot.2) ∈ c4State.registered ∧
    findLiveNode (gInit adRoot 0) adRoot = none ∧
    handlePacket c4State 5 c4Packet = .error .typeError := by
  decide

/-- C6 counterexample: attaching the same known address under the root a
second time appends it to the root's children again — afterwards heap
index 1 appears twice in the root's children list, although the node table
still lists it once. -/
theorem c6_counterexample :
    c6Chain = some c6g ∧
    (gget c6g 0).map GNode.children = some [1, 1] ∧
    addrOf c6g 1 = some adB ∧
    c6g.nodes = [0, 1] := by
  decide

/-- C7 counterexample: a length-valid Register packet whose 3-character
tag is `'XXX'` raises `ValueError` inside `RegisterType(...)`, and a frame
whose type field is 6 raises `ValueError` inside `PacketType(...)` during
`parse_buffer` — neither is dropped silently; both exceptions escape the
per-tick dispatch (`Peer.run` catches only `KeyboardInterrupt`). -/
theorem c7_counterexample :
    validatePacket c7BadTagPacket = true ∧
    handlePacket c7State 0 c7BadTagPacket = .error .valueError ∧
    parseBuffer c7BadTypeBuf = .error .unknownType := by
  decide

/-- C9 counterexample: on a fresh graph the root's level is `None`, not 0;
and after re-attaching a known node C under the root (level recomputed to
1), C's child D keeps its old level 3 — a non-root node whose level is not
its parent's level plus one. -/
theorem c9_counterexample :
    (gget (gInit adRoot 0) 0).map GNode.level = some none ∧
    c9Chain = some c9g ∧
    (gget c9g 2).map GNode.level = some (some 1) ∧
    (gget c9g 3).map GNode.parent = some (some 2) ∧
    (gget c9g 3).map GNode.level = some (some 3) := by
  decide

/-- C2 counterexample: a valid Message packet (version 1, canonical
source, `length == len(body)`) whose body is the single character U+00E9
encodes to a buffer whose body bytes were truncated to the 1-character
count, and decoding that buffer raises `UnicodeDecodeError` instead of
reproducing the packet. -/
theorem c2_counterexample :
    validatePacket c2BadPacket = true ∧
    (getBuf c2BadPacket).map parseBuffer = some (.error .badUtf8) := by
  decide

/-- C7 (amended): a frame whose length field differs from its body length
is dropped silently by the dispatcher — the handler returns with the peer
state (including every outbound buffer) unchanged and no type-specific
handler runs.  (Unrecognized types or tags, by contrast, raise: see the
counterexample.) -/
theorem c7_length_mismatch_dropped (s : PeerState) (now : Nat) (p : Packet)
    (h : p.length ≠ p.body.length) : handlePacket s now p = .ok s := by
  unfold handlePacket
  rw [if_pos]
  simp [validatePacket, h]

/-- Witness: a Message packet claiming length 5 over a 2-character body is
dropped without any effect on a concrete peer state. -/
theorem c7_length_mismatch_dropped_witness :
    (⟨1, .MESSAGE, 5, adB.1, adB.2, ['h', 'i']⟩ : Packet).length ≠
      (⟨1, .MESSAGE, 5, adB.1, adB.2, ['h', 'i']⟩ : Packet).body.length ∧
    handlePacket c7State 0 ⟨1, .MESSAGE, 5, adB.1, adB.2, ['h', 'i']⟩ = .ok c7State :=
  ⟨by decide, c7_length_mismatch_dropped c7State 0 _ (by decide)⟩

/-- C8: in `FAILED` reunion mode the per-tick dispatch still hands
Advertise packets to their handler but turns every other (valid) packet
into a no-op, and the outbound flush clears and sends only the buffers of
register connections, leaving non-register connections untouched. -/
theorem c8_failed_mode_gating (s : PeerState) (now : Nat) (p : Packet)
    (h : s.reunion_mode = .FAILED) :
    (validatePacket p = true → p.packet_type ≠ .ADVERTISE →
      handlePacket s now p = .ok s) ∧
    (validatePacket p = true → p.packet_type = .ADVERTISE →
      handlePacket s now p = handleAdvertisePacket s now p) ∧
    (tickFlush s).1 =
      s.conns.map (fun c => if c.is_register then { c with out_buff := [] } else c) ∧
    (tickFlush s).2 = (s.conns.filter (fun c => c.is_register)).flatMap Conn.out_buff := by
  refine ⟨fun hv hty => ?_, fun hv hty => ?_, ?_, ?_⟩
  · unfold handlePacket
    rw [if_neg (by simp [hv]), if_pos h, if_neg hty]
  · unfold handlePacket
    rw [if_neg (by simp [hv]), if_pos h, if_pos hty]
  · simp [tickFlush, h, sendOutBufMessages]
  · simp [tickFlush, h, sendOutBufMessages]

/-- Witness for the failed-mode gating at a concrete state: a Register
packet is ignored, an Advertise packet is dispatched, and the flush
touches only the register connection. -/
theorem c8_failed_mode_gating_witness :
    (validatePacket c7BadTagPacket = true → c7BadTagPacket.packet_type ≠ .ADVERTISE →
      handlePacket c8State 0 c7BadTagPacket = .ok c8State) ∧
    (validatePacket c7BadTagPacket = true → c7BadTagPacket.packet_type = .ADVERTISE →
      handlePacket c8State 0 c7BadTagPacket = handleAdvertisePacket c8State 0 c7BadTagPacket) ∧
    (tickFlush c8State).1 =
      c8State.conns.map (fun c => if c.is_register then { c with out_buff := [] } else c) ∧
    (tickFlush c8State).2 =
      (c8State.conns.filter (fun c => c.is_register)).flatMap Conn.out_buff :=
  c8_failed_mode_gating c8State 0 c7BadTagPacket rfl

/-- C10: a Join packet that passes the length check while the peer is in
`ACCEPTANCE` mode unconditionally appends the sender's address to the
children list — no registration, duplicate or capacity check — so handling
the same Join twice leaves the address in the list twice and grows the
list by two entries regardless of its current size. -/
theorem c10_join_unconditional (s : PeerState) (now now2 : Nat) (p : Packet)
    (hmode : s.reunion_mode = .ACCEPTANCE) (hty : p.packet_type = .JOIN)
    (hval : validatePacket p = true) :
    ∃ s₁ s₂, handlePacket s now p = .ok s₁ ∧
      s₁.children_addresses = s.children_addresses ++ [packetSource p] ∧
      handlePacket s₁ now2 p = .ok s₂ ∧
      s₂.children_addresses = s.children_addresses ++ [packetSource p, packetSource p] ∧
      s₂.children_addresses.length = s.children_addresses.length + 2 := by
  have hstep : ∀ (t : PeerState) (n : Nat), t.reunion_mode = .ACCEPTANCE →
      handlePacket t n p =
        .ok { t with conns := streamAddNode t.conns (packetSource p) false,
                     children_addresses := t.children_addresses ++ [packetSource p] } := by
    intro t n hm
    simp [handlePacket, hval, hm, hty, handleJoinPacket]
  exact ⟨_, _, hstep s now hmode, rfl, hstep _ now2 hmode, by simp, by simp⟩

/-- Witness: a peer that already has two children accepts a third and a
fourth copy of the same sender. -/
theorem c10_join_unconditional_witness :
    ∃ s₁ s₂, handlePacket c10State 0 c10Join = .ok s₁ ∧
      s₁.children_addresses = c10State.children_addresses ++ [packetSource c10Join] ∧
      handlePacket s₁ 1 c10Join = .ok s₂ ∧
      s₂.children_addresses =
        c10State.children_addresses ++ [packetSource c10Join, packetSource c10Join] ∧
      s₂.children_addresses.length = c10State.children_addresses.length + 2 :=
  c10_join_unconditional c10State 0 1 c10Join rfl rfl (by decide)

/-- `enqueueFirst` on a list containing a connection with the target
address and flag yields a list containing such a connection that now holds
the packet. -/
theorem enqueueFirst_mem (pkt : Packet) (aa : Address) (ww : Bool) :
    ∀ conns : List Conn, (∃ c ∈ conns, c.address = aa ∧ c.is_register = ww) →
      ∃ c ∈ enqueueFirst pkt (fun c => c.address = aa && c.is_register = ww) conns,
        c.address = aa ∧ c.is_register = ww ∧ pkt ∈ c.out_buff := by
  intro conns
  induction conns with
  | nil => rintro ⟨c, hc, _⟩; cases hc
  | cons d rest ih =>
    rintro ⟨c, hc, hca, hcw⟩
    by_cases hd : d.address = aa ∧ d.is_register = ww
    · refine ⟨{ d with out_buff := d.out_buff ++ [pkt] }, ?_, hd.1, hd.2, by simp⟩
      simp [enqueueFirst, hd.1, hd.2]
    · have hdb : (d.address = aa && d.is_register = ww) = false := by
        rcases Decidable.not_and_iff_or_not.mp hd with h | h <;> simp [h]
      rcases List.mem_cons.1 hc with h | h
      · exact absurd ⟨h ▸ hca, h ▸ hcw⟩ hd
      · obtain ⟨c', hc', h1, h2, h3⟩ := ih ⟨c, h, hca, hcw⟩
        exact ⟨c', by simp [enqueueFirst, hdb, hc'], h1, h2, h3⟩

/-- C5: an Advertise-Response arriving at a non-root peer (in either
reunion mode) records the address carried in the body as the new parent —
superseding any previous one — opens a non-register connection to it,
enqueues a Join packet on a matching connection, resets both hello
timestamps, returns the peer to `ACCEPTANCE` mode, and leaves the reunion
daemon running. -/
theorem c5_advertise_response (s : PeerState) (now : Nat) (p : Packet) (a : Address)
    (hroot : s.is_root = false) (hty : p.packet_type = .ADVERTISE)
    (hval : validatePacket p = true)
    (htag : pySlice p.body 0 3 = ['R', 'E', 'S'])
    (haddr : getAdvertisedAddress p = some a)
    (hip : pyParseIp a.1 = some a.1) :
    ∃ s', handlePacket s now p = .ok s' ∧
      s'.parent_address = some a ∧
      s'.reunion_mode = .ACCEPTANCE ∧
      s'.reunion_daemon_alive = true ∧
      s'.last_hello_time = some now ∧
      s'.last_hello_back_time = some now ∧
      ∃ c ∈ s'.conns, c.address = a ∧ c.is_register = false ∧
        newJoinPacket s.address ∈ c.out_buff := by
  have hd : handlePacket s now p = handleAdvertisePacket s now p := by
    cases hsm : s.reunion_mode <;> simp [handlePacket, hval, hty, hsm]
  have hr : handleAdvertisePacket s now p = handleAdvertiseResponse s now p := by
    simp [handleAdvertisePacket, htag, reqResOfTag, hroot]
  rw [hd, hr]
  simp only [handleAdvertiseResponse, haddr, streamAddNode, streamAddMessage, hip,
    Option.map_some]
  refine ⟨_, rfl, rfl, rfl, rfl, rfl, ?_⟩
  simpa using enqueueFirst_mem (newJoinPacket s.address) (a.1, a.2) false
    (s.conns ++ [⟨(a.1, a.2), false, []⟩])
    ⟨⟨(a.1, a.2), false, []⟩, by simp, rfl, rfl⟩

/-- Witness: a non-root peer consuming `c5Packet` ends up with the root as
parent, a Join packet queued to it, `ACCEPTANCE` mode and a running
daemon. -/
theorem c5_advertise_response_witness :
    ∃ s', handlePacket c7State 7 c5Packet = .ok s' ∧
      s'.parent_address = some adRoot ∧
      s'.reunion_mode = .ACCEPTANCE ∧
      s'.reunion_daemon_alive = true ∧
      s'.last_hello_time = some 7 ∧
      s'.last_hello_back_time = some 7 ∧
      ∃ c ∈ s'.conns, c.address = adRoot ∧ c.is_register = false ∧
        newJoinPacket c7State.address ∈ c.out_buff :=
  c5_advertise_response c7State 7 c5Packet adRoot rfl rfl (by decide) (by decide)
    (by decide) (by decide)

/-- Reading the heap at the freshly written index. -/
theorem gget_gset_self {g : GraphState} {i : Nat} (n : GNode) (h : i < g.heap.length) :
    gget (gset g i n) i = some n := by
  simp [gget, gset, List.get?_eq_getElem?, List.getElem?_set_self h]

/-- Writing one heap cell leaves every other cell unchanged. -/
theorem gget_gset_ne {g : GraphState} {i j : Nat} (n : GNode) (h : i ≠ j) :
    gget (gset g i n) j = gget g j := by
  simp [gget, gset, List.get?_eq_getElem?, List.getElem?_set_ne h]

/-- A successful heap read is within bounds. -/
theorem gget_lt {g : GraphState} {i : Nat} {n : GNode} (h : gget g i = some n) :
    i < g.heap.length := by
  have h' : g.heap[i]? = some n := by simpa [gget, List.get?_eq_getElem?] using h
  exact (List.getElem?_eq_some_iff.mp h').1

/-- C6 (amended): `add_node` of a known (ip, port) re-parents and
refreshes that node — liveness reset, level recomputed as 1 under the root
and `father.level + 1` otherwise — and adds no node-table entry, but it
appends the node to the new father's children (when the father has fewer
than two) without removing it from any previous children list it sits in,
so it can come to appear under several parents, or twice under one.  An
unknown (ip, port) yields a single new node, parented, leveled, and
appended to heap and node table. -/
theorem c6_attach_behaviour (g : GraphState) (now : Nat) (ip : PyStr) (port : Nat)
    (fa : Address) (cip : PyStr) (fi : Nat) (fn : GNode) (lvl : Nat)
    (hip : pyParseIp ip = some cip)
    (hfa : findNodeIdx g fa = some fi)
    (hfn : gget g fi = some fn)
    (hlvl : addNodeLevel g fi = some lvl) :
    (∀ oi old, findNodeIdx g (cip, port) = some oi → oi ≠ fi → gget g oi = some old →
      ∃ g', addNodeG g now ip port fa = some g' ∧
        g'.root = g.root ∧
        g'.nodes = g.nodes ∧
        g'.heap.length = g.heap.length ∧
        gget g' oi = some { old with is_alive := true, last_hello := some now,
                                     parent := some fi, level := some lvl } ∧
        gget g' fi = some (addChild fn oi) ∧
        ∀ j, j ≠ oi → j ≠ fi → gget g' j = gget g j) ∧
    (findNodeIdx g (cip, port) = none →
      ∃ g', addNodeG g now ip port fa = some g' ∧
        g'.root = g.root ∧
        g'.heap.length = g.heap.length + 1 ∧
        g'.nodes = g.nodes ++ [g.heap.length] ∧
        gget g' g.heap.length = some ⟨(cip, port), some fi, [], some lvl, true, some now⟩ ∧
        gget g' fi = some (addChild fn g.heap.length) ∧
        ∀ j, j ≠ fi → j ≠ g.heap.length → gget g' j = gget g j) := by
  have hfiLt : fi < g.heap.length := gget_lt hfn
  constructor
  · intro oi old hoi hne hold
    have hoiLt : oi < g.heap.length := gget_lt hold
    have hfn1 : gget (gset g oi { old with is_alive := true, last_hello := some now, parent := some fi, level := some lvl }) fi = some fn := by
      rw [gget_gset_ne _ hne]; exact hfn
    refine ⟨gset (gset g oi { old with is_alive := true, last_hello := some now, parent := some fi, level := some lvl }) fi (addChild fn oi), ?_, rfl, rfl, by simp [gset], ?_, ?_, ?_⟩
    · simp [addNodeG, hip, hoi, hfa, hold, hlvl, hfn1]
    · rw [gget_gset_ne _ (Ne.symm hne), gget_gset_self _ hoiLt]
    · rw [gget_gset_self]
      simpa [gset] using hfiLt
    · intro j hj1 hj2
      rw [gget_gset_ne _ (fun h => hj2 h.symm), gget_gset_ne _ (fun h => hj1 h.symm)]
  · intro hnone
    have hfn1 : gget { g with heap := g.heap ++ [⟨(cip, port), some fi, [], some lvl, true, some now⟩] } fi = some fn := by
      simpa [gget, List.get?_eq_getElem?, List.getElem?_append_left hfiLt] using hfn
    refine ⟨{ gset { g with heap := g.heap ++ [⟨(cip, port), some fi, [], some lvl, true, some now⟩] } fi (addChild fn g.heap.length) with nodes := g.nodes ++ [g.heap.length] }, ?_, rfl, ?_, rfl, ?_, ?_, ?_⟩
    · simp [addNodeG, hip, hnone, hfa, hlvl, hfn1, gset]
    · simp [gset]
    · have h1 : gget (gset { g with heap := g.heap ++ [⟨(cip, port), some fi, [], some lvl, true, some now⟩] } fi (addChild fn g.heap.length)) g.heap.length = gget { g with heap := g.heap ++ [⟨(cip, port), some fi, [], some lvl, true, some now⟩] } g.heap.length :=
        gget_gset_ne _ (Nat.ne_of_lt hfiLt)
      rw [show gget ({ gset { g with heap := g.heap ++ [⟨(cip, port), some fi, [], some lvl, true, some now⟩] } fi (addChild fn g.heap.length) with nodes := g.nodes ++ [g.heap.length] }) g.heap.length = gget (gset { g with heap := g.heap ++ [⟨(cip, port), some fi, [], some lvl, true, some now⟩] } fi (addChild fn g.heap.length)) g.heap.length from rfl, h1]
      simp [gget, List.get?_eq_getElem?]
    · rw [show gget ({ gset { g with heap := g.heap ++ [⟨(cip, port), some fi, [], some lvl, true, some now⟩] } fi (addChild fn g.heap.length) with nodes := g.nodes ++ [g.heap.length] }) fi = gget (gset { g with heap := g.heap ++ [⟨(cip, port), some fi, [], some lvl, true, some now⟩] } fi (addChild fn g.heap.length)) fi from rfl]
      rw [gget_gset_self]
      · simp; omega
    · intro j hj1 hj2
      rw [show gget ({ gset { g with heap := g.heap ++ [⟨(cip, port), some fi, [], some lvl, true, some now⟩] } fi (addChild fn g.heap.length) with nodes := g.nodes ++ [g.heap.length] }) j = gget (gset { g with heap := g.heap ++ [⟨(cip, port), some fi, [], some lvl, true, some now⟩] } fi (addChild fn g.heap.length)) j from rfl]
      rw [gget_gset_ne _ (fun h => hj1 h.symm)]
      rcases Nat.lt_trichotomy j g.heap.length with h | h | h
      · simp [gget, List.get?_eq_getElem?, List.getElem?_append_left h]
      · exact absurd h hj2
      · simp only [gget, List.get?_eq_getElem?]
        rw [List.getElem?_append_right (by omega)]
        have h1 : g.heap[j]? = none := List.getElem?_eq_none (by omega)
        have h2 : [(⟨(cip, port), some fi, [], some lvl, true, some now⟩ : GNode)][j - g.heap.length]? = none :=
          List.getElem?_eq_none (by simp; omega)
        rw [h1, h2]

/-- Witness: re-attaching the known node B under the root refreshes it in
place and appends it to the root's children again. -/
theorem c6_attach_behaviour_witness :
    ∃ g', addNodeG c6gOne 2 adB.1 adB.2 adRoot = some g' ∧
      g'.root = c6gOne.root ∧
      g'.nodes = c6gOne.nodes ∧
      g'.heap.length = c6gOne.heap.length ∧
      gget g' 1 = some { (⟨adB, some 0, [], some 1, true, some 1⟩ : GNode) with is_alive := true, last_hello := some 2, parent := some 0, level := some 1 } ∧
      gget g' 0 = some (addChild ⟨adRoot, none, [1], none, true, some 0⟩ 1) ∧
      ∀ j, j ≠ 1 → j ≠ 0 → gget g' j = gget c6gOne j :=
  (c6_attach_behaviour c6gOne 2 adB.1 adB.2 adRoot adB.1 0
      ⟨adRoot, none, [1], none, true, some 0⟩ 1 (by decide) (by decide) (by decide)
      (by decide)).1 1 ⟨adB, some 0, [], some 1, true, some 1⟩ (by decide) (by decide)
    (by decide)

/-- C3 (amended): whenever the sender's address denotes a node in the
graph's node table, `find_live_node` never returns the sender's own
address, and the node whose address it returns never has the sender's
address anywhere strictly above it in the parent chain.  (When the sender
is absent from the node table only the self-exclusion survives: the
ancestor check is skipped, and a dangling parent reference to a removed
node can carry the sender's address — see the counterexample.) -/
theorem c3_place_exclusions (g : GraphState) (sender : Address) (i : Nat) (a : Address)
    (hs : findNodeIdx g sender ≠ none)
    (hidx : findLiveNodeIdx g sender = some i)
    (ha : findLiveNode g sender = some a) :
    a ≠ sender ∧ reachesUpTo g i sender = false := by
  obtain ⟨sj, hsj⟩ : ∃ sj, findNodeIdx g sender = some sj := by
    cases h : findNodeIdx g sender with
    | none => exact absurd h hs
    | some sj => exact ⟨sj, rfl⟩
  have hsjAddr : addrOf g sj = some sender := by
    have hp := List.find?_some hsj
    cases hg : gget g sj with
    | none => rw [hg] at hp; simp [Option.any] at hp
    | some nsj =>
      rw [hg] at hp
      simp only [Option.any, decide_eq_true_eq] at hp
      simp [addrOf, hg, hp]
  have hskip : flnSkip g sender (findNodeIdx g sender) i = false := by
    have hp := List.find?_some hidx
    simpa using hp
  rw [hsj] at hskip
  cases hgi : gget g i with
  | none =>
    simp only [flnSkip, hgi] at hskip
    exact absurd hskip (by decide)
  | some n =>
    simp only [flnSkip, hgi, hsjAddr, Option.getD_some, Bool.or_eq_false_iff,
      decide_eq_false_iff_not, Bool.not_eq_false] at hskip
    obtain ⟨⟨⟨⟨-, -⟩, -⟩, hchk⟩, hna⟩ := hskip
    have haddr : addrOf g i = some a := by
      simpa [findLiveNode, hidx] using ha
    have haEq : a = n.address := by
      simp only [addrOf, hgi] at haddr
      simp at haddr
      exact haddr.symm
    constructor
    · rw [haEq]; exact hna
    · rw [reachesUpTo, hgi]; exact hchk

/-- Witness: with sender B present in the table of the root+B graph,
placement returns the root, which is neither B nor below B. -/
theorem c3_place_exclusions_witness :
    findNodeIdx c6gOne adB ≠ none ∧
    findLiveNodeIdx c6gOne adB = some 0 ∧
    findLiveNode c6gOne adB = some adRoot ∧
    adRoot ≠ adB ∧ reachesUpTo c6gOne 0 adB = false :=
  ⟨by decide, by decide, by decide,
   (c3_place_exclusions c6gOne adB 0 adRoot (by decide) (by decide) (by decide)).1,
   (c3_place_exclusions c6gOne adB 0 adRoot (by decide) (by decide) (by decide)).2⟩

/-- The fuel version of the digit expansion agrees with `Nat.digits`. -/
theorem digitsRevFuel_eq (f : Nat) : ∀ n : Nat, n ≤ f → digitsRevFuel f n = Nat.digits 10 n := by
  induction f with
  | zero =>
    intro n hn
    interval_cases n
    simp [digitsRevFuel]
  | succ f ih =>
    intro n hn
    cases n with
    | zero => simp [digitsRevFuel]
    | succ m =>
      have hlt : (m + 1) / 10 < m + 1 := Nat.div_lt_self (Nat.succ_pos m) (by norm_num)
      rw [show digitsRevFuel (f + 1) (m + 1) = (m + 1) % 10 :: digitsRevFuel f ((m + 1) / 10) from rfl]
      rw [ih _ (by omega), Nat.digits_def' (by norm_num) (Nat.succ_pos m)]

/-- Every character of `natToStr n` is a decimal digit. -/
theorem natToStr_isDigit (n : Nat) : ∀ c ∈ natToStr n, c.isDigit = true := by
  intro c hc
  unfold natToStr at hc
  by_cases h : n = 0
  · simp [h] at hc
    simp [hc]
  · simp only [h, if_false, List.mem_map, List.mem_reverse] at hc
    obtain ⟨d, hd, rfl⟩ := hc
    rw [digitsRevFuel_eq n n le_rfl] at hd
    have hd10 : d < 10 := Nat.digits_lt_base (by norm_num) hd
    interval_cases d <;> decide

/-- A digit character is not a dot. -/
theorem isDigit_ne_dot {c : Char} (h : c.isDigit = true) : c ≠ '.' := by
  intro hh
  rw [hh] at h
  exact absurd h (by decide)

/-- Folding the decimal evaluation over digit characters below 10 computes
`Nat.ofDigits`. -/
theorem foldr_digits_ofDigits (L : List Nat) (h : ∀ d ∈ L, d < 10) :
    List.foldr (fun d a => 10 * a + digitVal (digitChar d)) 0 L = Nat.ofDigits 10 L := by
  induction L with
  | nil => simp [Nat.ofDigits_nil]
  | cons d rest ih =>
    have hd : d < 10 := h d (by simp)
    have hdv : digitVal (digitChar d) = d := by interval_cases d <;> decide
    rw [List.foldr_cons, ih (fun x hx => h x (by simp [hx])), Nat.ofDigits_cons, hdv]
    ring

/-- Python `int(str(n)) = n`. -/
theorem foldl_natToStr (n : Nat) :
    List.foldl (fun a c => 10 * a + digitVal c) 0 (natToStr n) = n := by
  unfold natToStr
  by_cases h : n = 0
  · simp [h, digitVal]
  · simp only [h, if_false]
    rw [digitsRevFuel_eq n n le_rfl, List.foldl_map, List.foldl_reverse]
    rw [foldr_digits_ofDigits _ (fun d hd => Nat.digits_lt_base (by norm_num) hd)]
    exact Nat.ofDigits_digits 10 n

/-- `natToStr n` is never empty. -/
theorem natToStr_ne_nil (n : Nat) : natToStr n ≠ [] := by
  unfold natToStr
  by_cases h : n = 0
  · simp [h]
  · simp only [h, if_false]
    intro hh
    have h1 : digitsRevFuel n n = [] := by
      have := congrArg List.length hh
      simp at this
      cases hd : digitsRevFuel n n with
      | nil => rfl
      | cons a l => rw [hd] at this; simp at this
    rw [digitsRevFuel_eq n n le_rfl] at h1
    exact h (Nat.digits_eq_nil_iff_eq_zero.mp h1)

/-- `pyInt` inverts `natToStr`. -/
theorem pyInt_natToStr (n : Nat) : pyInt (natToStr n) = some n := by
  unfold pyInt
  rw [if_pos ⟨natToStr_ne_nil n, List.all_eq_true.mpr (natToStr_isDigit n)⟩,
    foldl_natToStr]

/-- Leading zero characters do not change the folded value. -/
theorem foldl_replicate_zero (k : Nat) (s : PyStr) :
    List.foldl (fun a c => 10 * a + digitVal c) 0 (List.replicate k '0' ++ s) =
    List.foldl (fun a c => 10 * a + digitVal c) 0 s := by
  induction k with
  | zero => rfl
  | succ k ih => simpa [List.replicate_succ, digitVal] using ih

/-- `pyInt` inverts `zfill k ∘ natToStr`. -/
theorem pyInt_zfill_natToStr (k n : Nat) : pyInt (zfill k (natToStr n)) = some n := by
  unfold pyInt zfill
  rw [if_pos, foldl_replicate_zero, foldl_natToStr]
  constructor
  · simp [natToStr_ne_nil n]
  · simp only [List.all_append, Bool.and_eq_true]
    refine ⟨?_, List.all_eq_true.mpr (natToStr_isDigit n)⟩
    simp only [List.all_eq_true]
    intro c hc
    rw [List.eq_of_mem_replicate hc]
    decide

/-- Splitting a dot-free string yields the string itself. -/
theorem splitOn_dot_free : ∀ s : PyStr, (∀ c ∈ s, c ≠ '.') → splitOn '.' s = [s] := by
  intro s
  induction s with
  | nil => intro _; rfl
  | cons c cs ih =>
    intro h
    have hc : c ≠ '.' := h c (by simp)
    rw [splitOn]
    simp only [hc, if_false]
    rw [ih (fun x hx => h x (by simp [hx]))]

/-- Splitting after a dot-free prefix peels exactly that prefix off. -/
theorem splitOn_append_dot : ∀ (s t : PyStr), (∀ c ∈ s, c ≠ '.') →
    splitOn '.' (s ++ '.' :: t) = s :: splitOn '.' t := by
  intro s
  induction s with
  | nil => intro t _; simp [splitOn]
  | cons c cs ih =>
    intro t h
    have hc : c ≠ '.' := h c (by simp)
    rw [List.cons_append, splitOn]
    simp only [hc, if_false]
    rw [ih t (fun x hx => h x (by simp [hx]))]

/-- Splitting the dot-join of dot-free parts recovers the parts. -/
theorem splitOn_joinDot : ∀ parts : List PyStr, parts ≠ [] →
    (∀ s ∈ parts, ∀ c ∈ s, c ≠ '.') → splitOn '.' (joinDot parts) = parts := by
  intro parts
  induction parts with
  | nil => intro h _; exact absurd rfl h
  | cons s rest ih =>
    intro _ h
    cases rest with
    | nil => exact splitOn_dot_free s (h s (by simp))
    | cons s' rest' =>
      rw [show joinDot (s :: s' :: rest') = s ++ '.' :: joinDot (s' :: rest') from rfl]
      rw [splitOn_append_dot s _ (h s (by simp)), ih (by simp)
        (fun x hx => h x (by simp [hx]))]

/-- ASCII characters UTF-8 encode to their own single code-point byte. -/
theorem utf8Encode_ascii (s : PyStr) (h : ∀ c ∈ s, c.toNat < 128) :
    utf8Encode s = s.map Char.toNat := by
  induction s with
  | nil => rfl
  | cons c cs ih =>
    have hc : c.toNat < 128 := h c (by simp)
    rw [show utf8Encode (c :: cs) = utf8EncodeChar c ++ utf8Encode cs from rfl]
    rw [show utf8EncodeChar c = [c.toNat] by unfold utf8EncodeChar; rw [if_pos hc]]
    rw [ih (fun x hx => h x (by simp [hx]))]
    rfl

/-- An ASCII byte decodes to its own code point, consuming one byte. -/
theorem utf8DecodeOne_ascii (b : Nat) (rest : List Nat) (hb : b < 128) :
    utf8DecodeOne (b :: rest) = some (Char.ofNat b, 1) := by
  unfold utf8DecodeOne
  simp [hb]

/-- The fueled decoder restores an ASCII string from its code-point
bytes, given at least as much fuel as characters. -/
theorem utf8DecodeFuel_ascii : ∀ (s : PyStr) (f : Nat), s.length ≤ f →
    (∀ c ∈ s, c.toNat < 128) → utf8DecodeFuel f (s.map Char.toNat) = some s := by
  intro s
  induction s with
  | nil => intro f _ _; cases f <;> rfl
  | cons c cs ih =>
    intro f hf h
    have hc : c.toNat < 128 := h c (by simp)
    cases f with
    | zero => simp at hf
    | succ f =>
      rw [List.map_cons, utf8DecodeFuel]
      rw [utf8DecodeOne_ascii _ _ hc]
      rw [show (match some (Char.ofNat c.toNat, 1) with
        | none => none
        | some (cc, k) => Option.map (fun x => cc :: x)
            (utf8DecodeFuel f (List.drop k (c.toNat :: List.map Char.toNat cs)))) =
        Option.map (fun x => Char.ofNat c.toNat :: x)
          (utf8DecodeFuel f (List.map Char.toNat cs)) from rfl]
      rw [ih f (by simpa using hf) (fun x hx => h x (by simp [hx]))]
      rw [show Option.map (fun x => Char.ofNat c.toNat :: x) (some cs) =
        some (Char.ofNat c.toNat :: cs) from rfl, Char.ofNat_toNat]

/-- Decoding the code-point bytes of an ASCII string restores the string. -/
theorem utf8Decode_ascii (s : PyStr) (h : ∀ c ∈ s, c.toNat < 128) :
    utf8Decode (s.map Char.toNat) = some s := by
  rw [utf8Decode]
  exact utf8DecodeFuel_ascii s _ (by simp) h

/-- No character of a zero-filled decimal rendering is a dot. -/
theorem zfill_natToStr_dot_free (k n : Nat) : ∀ c ∈ zfill k (natToStr n), c ≠ '.' := by
  intro c hc
  rw [zfill, List.mem_append] at hc
  rcases hc with hc | hc
  · rw [List.eq_of_mem_replicate hc]; decide
  · exact isDigit_ne_dot (natToStr_isDigit n c hc)

/-- Round-trip of the enum tag through its wire value. -/
theorem packetTypeOfNat_value (t : PacketType) : packetTypeOfNat t.value = some t := by
  cases t <;> rfl

/-- The `H`-packed wire form of a type value is a zero byte and the value. -/
theorem be16_value (t : PacketType) : be16 t.value = [0, t.value] := by
  cases t <;> rfl

/-- The `H`-packed wire form of an octet is a zero byte and the octet. -/
theorem be16_small {n : Nat} (h : n ≤ 255) : be16 n = [0, n] := by
  rw [be16, Nat.div_eq_of_lt (by omega), Nat.mod_eq_of_lt (by omega)]

/-- `parse_ip` canonicalizes the unpadded dotted form `inet_ntoa`
produces. -/
theorem pyParseIp_inetNtoa (o1 o2 o3 o4 : Nat) :
    pyParseIp (inetNtoa o1 o2 o3 o4) = some (canonicalIp o1 o2 o3 o4) := by
  unfold pyParseIp inetNtoa
  rw [splitOn_joinDot [natToStr o1, natToStr o2, natToStr o3, natToStr o4] (by simp)
    (by
      intro s hs
      simp only [List.mem_cons, List.not_mem_nil, or_false] at hs
      rcases hs with rfl | rfl | rfl | rfl <;>
        exact fun c hc => isDigit_ne_dot (natToStr_isDigit _ c hc))]
  simp only [List.mapM_cons, List.mapM_nil, pyInt_natToStr, Option.pure_def,
    Option.bind_eq_bind, Option.some_bind]
  simp [canonicalIp]

/-- C2 (amended): for every valid packet — version 1, canonical source
address, `length == len(body)` (with the length in the 32-bit range the
`L` format requires) — whose body is ASCII, decoding the encoded buffer
yields a packet with the same type, the same canonical source address
(octets re-padded by `parse_ip`; `parse_buffer` itself returns the
unpadded `inet_ntoa` form) and the same body.  (A non-ASCII body breaks
the round trip: see the counterexample.) -/
theorem c2_round_trip (p : Packet) (o1 o2 o3 o4 : Nat)
    (hver : p.version = 1)
    (hip : p.source_ip = canonicalIp o1 o2 o3 o4)
    (h1 : o1 ≤ 255) (h2 : o2 ≤ 255) (h3 : o3 ≤ 255) (h4 : o4 ≤ 255)
    (hport : p.source_port ≤ 65535)
    (hlen : p.length = p.body.length)
    (hlen32 : p.length < 4294967296)
    (hascii : ∀ c ∈ p.body, c.toNat < 128) :
    ∃ buf q, getBuf p = some buf ∧ parseBuffer buf = .ok q ∧
      q.packet_type = p.packet_type ∧
      pyParseIp q.source_ip = some p.source_ip ∧
      q.source_port = p.source_port ∧
      q.body = p.body := by
  have hsplit : splitOn '.' p.source_ip =
      [zfill 3 (natToStr o1), zfill 3 (natToStr o2), zfill 3 (natToStr o3),
       zfill 3 (natToStr o4)] := by
    rw [hip]
    exact splitOn_joinDot _ (by simp)
      (by
        intro s hs
        simp only [canonicalIp, List.map_cons, List.map_nil, List.mem_cons,
          List.not_mem_nil, or_false] at hs ⊢
        rcases hs with rfl | rfl | rfl | rfl <;> exact zfill_natToStr_dot_free _ _)
  have hbody : utf8Encode p.body = p.body.map Char.toNat := utf8Encode_ascii p.body hascii
  have hbuf : getBuf p = some (be16 p.version ++ be16 p.packet_type.value ++
      be32 p.length ++ be16 o1 ++ be16 o2 ++ be16 o3 ++ be16 o4 ++
      be32 p.source_port ++ p.body.map Char.toNat) := by
    rw [getBuf, hsplit]
    simp only [List.mapM_cons, List.mapM_nil, pyInt_zfill_natToStr, Option.pure_def,
      Option.bind_eq_bind, Option.some_bind]
    rw [if_pos (by omega)]
    rw [hbody]
    simp [List.take_of_length_le, hlen]
  refine ⟨_, ⟨1, p.packet_type, p.length, inetNtoa o1 o2 o3 o4,
    p.source_port, p.body⟩, hbuf, ?_, rfl, ?_, rfl, rfl⟩
  · rw [hver, be16_value, be16_small h1, be16_small h2, be16_small h3, be16_small h4]
    rw [show be16 1 = [0, 1] from rfl, be32, be32]
    simp only [List.cons_append, List.nil_append]
    rw [parseBuffer]
    norm_num
    rw [packetTypeOfNat_value]
    rw [show ((p.source_port / 16777216 * 256 + p.source_port / 65536 % 256) * 256 +
      p.source_port / 256 % 256) * 256 + p.source_port % 256 = p.source_port by omega]
    rw [utf8Decode_ascii p.body hascii]
    rw [show ((p.length / 16777216 * 256 + p.length / 65536 % 256) * 256 +
      p.length / 256 % 256) * 256 + p.length % 256 = p.length by omega]
  · rw [hip]
    exact pyParseIp_inetNtoa o1 o2 o3 o4

/-- Witness: the ASCII Message packet round-trips. -/
theorem c2_round_trip_witness :
    ∃ buf q, getBuf c2GoodPacket = some buf ∧ parseBuffer buf = .ok q ∧
      q.packet_type = c2GoodPacket.packet_type ∧
      pyParseIp q.source_ip = some c2GoodPacket.source_ip ∧
      q.source_port = c2GoodPacket.source_port ∧
      q.body = c2GoodPacket.body :=
  c2_round_trip c2GoodPacket 100 0 0 1 rfl (by decide) (by decide) (by decide)
    (by decide) (by decide) (by decide) (by decide) (by decide) (by decide)

/-- A successful `find_node` names a heap entry carrying the queried
address. -/
theorem findNodeIdx_some_addr {g : GraphState} {a : Address} {j : Nat}
    (h : findNodeIdx g a = some j) : ∃ n, gget g j = some n ∧ n.address = a := by
  have hp := List.find?_some h
  cases hg : gget g j with
  | none => rw [hg] at hp; simp [Option.any] at hp
  | some n =>
    rw [hg] at hp
    simp only [Option.any, decide_eq_true_eq] at hp
    exact ⟨n, rfl, hp⟩

/-- A failed `find_node` means no table entry carries the queried
address. -/
theorem findNodeIdx_none_addr {g : GraphState} {a : Address}
    (h : findNodeIdx g a = none) :
    ∀ j ∈ g.nodes, ∀ n, gget g j = some n → n.address ≠ a := by
  intro j hj n hn
  have hp := List.find?_eq_none.mp h j hj
  rw [hn] at hp
  simpa [Option.any] using hp

/-- The level bookkeeping invariant of graphs built from a fresh
`NetworkGraph` by fresh-address attaches: the root sits at index 0 of both
heap and node table with level `None`, no other node carries the root's
address, and every non-root node records a parent under which it was
leveled — 1 directly under the root, the parent's level plus one
otherwise. -/
theorem builtFresh_inv {g : GraphState} (h : BuiltFresh g) :
    g.root = 0 ∧
    (∃ r, gget g 0 = some r ∧ r.level = none) ∧
    (∀ i n r, gget g i = some n → gget g 0 = some r → i ≠ 0 → n.address ≠ r.address) ∧
    (0 ∈ g.nodes) ∧
    (∀ i n, gget g i = some n → i ≠ 0 →
      ∃ j m, n.parent = some j ∧ gget g j = some m ∧
        ((j = 0 ∧ n.level = some 1) ∨
         (j ≠ 0 ∧ ∃ k, m.level = some k ∧ n.level = some (k + 1)))) := by
  induction h with
  | init address now =>
    refine ⟨rfl, ⟨_, rfl, rfl⟩, ?_, by simp [gInit], ?_⟩
    · intro i n r hi _ hne
      have := gget_lt hi
      simp [gInit] at this
      omega
    · intro i n hi hne
      have := gget_lt hi
      simp [gInit] at this
      omega
  | step g now ip port father cip g' hg hparse hfresh hadd ih =>
    obtain ⟨hroot, ⟨r, hr, hrlvl⟩, huniq, hmem, hlevels⟩ := ih
    obtain ⟨fi, hfi⟩ : ∃ fi, findNodeIdx g father = some fi := by
      cases hf : findNodeIdx g father with
      | none =>
        rw [addNodeG, hparse] at hadd
        simp [hf] at hadd
      | some fi => exact ⟨fi, rfl⟩
    obtain ⟨fn, hfn, hfnaddr⟩ := findNodeIdx_some_addr hfi
    obtain ⟨lvl, hlvl⟩ : ∃ lvl, addNodeLevel g fi = some lvl := by
      cases hl : addNodeLevel g fi with
      | none =>
        rw [addNodeG, hparse] at hadd
        simp [hfi, hfresh, hl] at hadd
      | some lvl => exact ⟨lvl, rfl⟩
    obtain ⟨g'', hg'', hroot'', hlen'', hnodes'', hnew'', hfat'', hframe''⟩ :=
      (c6_attach_behaviour g now ip port father cip fi fn lvl hparse hfi hfn hlvl).2 hfresh
    rw [hadd] at hg''
    cases hg''
    set ni := g.heap.length with hni
    have hfiLt : fi < g.heap.length := gget_lt hfn
    have hniPos : 0 < g.heap.length := gget_lt hr
    have hpres : ∀ j m, gget g j = some m → ∃ m', gget g' j = some m' ∧
        m'.level = m.level ∧ m'.address = m.address ∧ m'.parent = m.parent := by
      intro j m hm
      have hjLt : j < g.heap.length := gget_lt hm
      by_cases hjf : j = fi
      · subst hjf
        have hmfn : m = fn := by rw [hm] at hfn; exact Option.some_inj.mp hfn
        subst hmfn
        refine ⟨addChild m ni, hfat'', ?_, ?_, ?_⟩ <;> simp [addChild] <;> split <;> rfl
      · exact ⟨m, by rw [hframe'' j hjf (by omega)]; exact hm, rfl, rfl, rfl⟩
    have hback : ∀ j m', gget g' j = some m' → j ≠ ni →
        ∃ m, gget g j = some m ∧ m'.level = m.level ∧ m'.address = m.address ∧
          m'.parent = m.parent := by
      intro j m' hm' hjni
      have hjLt : j < g'.heap.length := gget_lt hm'
      rw [hlen''] at hjLt
      have hjLt' : j < g.heap.length := by omega
      by_cases hjf : j = fi
      · subst hjf
        rw [hfat''] at hm'
        cases hm'
        refine ⟨fn, hfn, ?_, ?_, ?_⟩ <;> simp [addChild] <;> split <;> rfl
      · exact ⟨m', by rw [← hframe'' j hjf hjni]; exact hm', rfl, rfl, rfl⟩
    have hraddr : ∃ r', gget g' 0 = some r' ∧ r'.level = none ∧ r'.address = r.address := by
      obtain ⟨r', h1, h2, h3, _⟩ := hpres 0 r hr
      exact ⟨r', h1, by rw [h2, hrlvl], h3⟩
    obtain ⟨r', hr', hr'lvl, hr'addr⟩ := hraddr
    have hnewaddr : ((cip, port) : Address) ≠ r.address :=
      fun hh => findNodeIdx_none_addr hfresh 0 hmem r hr (by rw [hh]) 
    refine ⟨by rw [hroot'', hroot], ⟨r', hr', hr'lvl⟩, ?_, ?_, ?_⟩
    · intro i n rr hi hr0 hne
      have hrr : rr = r' := by rw [hr'] at hr0; exact (Option.some_inj.mp hr0).symm
      subst hrr
      by_cases hini : i = ni
      · subst hini
        rw [hnew''] at hi
        cases hi
        rw [hr'addr]
        exact hnewaddr
      · obtain ⟨m, hm, _, haddr, _⟩ := hback i n hi hini
        rw [haddr, hr'addr]
        exact huniq i m r hm hr hne
    · rw [hnodes'']
      exact List.mem_append_left _ hmem
    · intro i n hi hne
      by_cases hini : i = ni
      · subst hini
        rw [hnew''] at hi
        cases hi
        obtain ⟨fm, hfm, hfmlvl, hfmaddr, _⟩ := hpres fi fn hfn
        refine ⟨fi, fm, rfl, hfm, ?_⟩
        by_cases hfi0 : fi = 0
        · left
          refine ⟨hfi0, ?_⟩
          have : lvl = 1 := by
            rw [addNodeLevel, hfn] at hlvl
            subst hfi0
            rw [hroot] at hlvl
            simp only [addrOf, hr, Option.map_some, Option.map_some', Option.pure_def,
              Option.bind_eq_bind, Option.some_bind] at hlvl
            have heq : fn.address = r.address := by
              rw [hfn] at hr; exact congrArg GNode.address (Option.some_inj.mp hr)
            simp [heq] at hlvl
            omega
          simp [this]
        · right
          refine ⟨hfi0, ?_⟩
          have hfnr : fn.address ≠ r.address := huniq fi fn r hfn hr hfi0
          rw [addNodeLevel, hfn] at hlvl
          rw [hroot] at hlvl
          simp only [addrOf, hr, Option.map_some, Option.map_some', Option.pure_def,
            Option.bind_eq_bind, Option.some_bind] at hlvl
          rw [if_neg hfnr] at hlvl
          cases hfl : fn.level with
          | none => rw [hfl] at hlvl; simp at hlvl
          | some k =>
            rw [hfl] at hlvl
            simp only [Option.some_bind, Option.some_inj] at hlvl
            refine ⟨k, ?_, ?_⟩
            · rw [hfmlvl, hfl]
            · simp [← hlvl]
      · obtain ⟨m, hm, hmlvl, _, hmpar⟩ := hback i n hi hini
        obtain ⟨j, jm, hpar, hjm, hrule⟩ := hlevels i m hm hne
        obtain ⟨jm', hjm', hjm'lvl, _, _⟩ := hpres j jm hjm
        refine ⟨j, jm', by rw [hmpar, hpar], hjm', ?_⟩
        rcases hrule with ⟨hj0, hlv⟩ | ⟨hj0, k, hk1, hk2⟩
        · exact Or.inl ⟨hj0, by rw [hmlvl, hlv]⟩
        · exact Or.inr ⟨hj0, k, by rw [hjm'lvl, hk1], by rw [hmlvl, hk2]⟩

/-- C9 (amended): for every graph built from a fresh `NetworkGraph` solely
by attaches of previously-unknown addresses, the root's level is `None`
(not 0), and every non-root node was leveled against its recorded parent:
level 1 when that parent is the root, the parent's level plus one
otherwise.  (On a fresh graph the root's level is `None` rather than 0,
and an attach that re-parents a known node re-levels only that node, so
without the freshness restriction a child's level can go stale — see the
counterexample.) -/
theorem c9_fresh_level_invariant (g : GraphState) (h : BuiltFresh g) :
    (∃ r, gget g 0 = some r ∧ r.level = none) ∧
    g.root = 0 ∧
    (∀ i n, gget g i = some n → i ≠ 0 →
      ∃ j m, n.parent = some j ∧ gget g j = some m ∧
        ((j = 0 ∧ n.level = some 1) ∨
         (j ≠ 0 ∧ ∃ k, m.level = some k ∧ n.level = some (k + 1)))) := by
  obtain ⟨h1, h2, _, _, h5⟩ := builtFresh_inv h
  exact ⟨h2, h1, h5⟩

/-- Witness: the invariant holds of the concrete root+B graph built by one
fresh attach. -/
theorem c9_fresh_level_invariant_witness :
    (∃ r, gget c6gOne 0 = some r ∧ r.level = none) ∧
    c6gOne.root = 0 ∧
    (∀ i n, gget c6gOne i = some n → i ≠ 0 →
      ∃ j m, n.parent = some j ∧ gget c6gOne j = some m ∧
        ((j = 0 ∧ n.level = some 1) ∨
         (j ≠ 0 ∧ ∃ k, m.level = some k ∧ n.level = some (k + 1)))) :=
  c9_fresh_level_invariant c6gOne
    (BuiltFresh.step (gInit adRoot 0) 1 adB.1 adB.2 adRoot adB.1 c6gOne
      (BuiltFresh.init adRoot 0) (by decide) (by decide) (by decide))
